import Mathlib

/-!
# ssm-cache: an expiring cache in front of the SSM parameter store

A shallow embedding of `ssm-cache-impl.go` and `ssm-cache.go`.

* Go strings are Lean strings.  The only separator the code ever splits on is the
  ASCII comma, which never occurs inside a multi-byte UTF-8 sequence, so splitting
  the character sequence is the same as splitting the byte sequence.
* Go pointers that may be `nil` (`*string`, `*Parameter`) are `Option`s; dereferencing
  `none` is a run-time panic, recorded as `Outcome.panicked`.
* A Go result pair `(T, error)` is a Lean pair with an `Option GoError` second
  component (`none` is the `nil` error); a slice result is an `Option (List String)`
  (`none` is the `nil` slice).
* The receiver `*ssmCacheImpl` is passed explicitly and returned with the result.
  Besides the cache it carries the remote service, which logs every request it
  receives, so "no remote fetch" is the statement that the log did not grow.
* Clock readings are explicit arguments: `now` is the reading taken by `cache.Get`,
  `later` the reading taken by `cache.Set` (after the remote call has returned).
  Times and durations are nanosecond counts held in an `int64`; the one sum the
  cache computes, the expiry instant, wraps around as `int64` arithmetic does.
* The log of the remote service has one entry per call made on the SDK client; a
  paged listing is one call, however many page requests the SDK sends for it.
-/

namespace ssmcache

/-! ## Errors and outcomes -/

/-- A Go `error` value: one produced by the AWS SDK, one built by `errors.Errorf`,
or one built by `errors.Wrapf` around a cause. -/
inductive GoError where
  | sdk (msg : String)
  | errorf (msg : String)
  | wrapf (cause : GoError) (msg : String)
  deriving DecidableEq, Repr

/-- How a Go call ends: it returns its result values, or it panics. -/
inductive Outcome (α : Type) where
  | returned (val : α)
  | panicked (msg : String)
  deriving DecidableEq, Repr

/-- The panic raised by dereferencing a nil pointer. -/
def nilDereference : String :=
  "runtime error: invalid memory address or nil pointer dereference"

/-! ## The remote parameter store (`ssm.SSM`) -/

/-- The constant `ssm.ParameterTypeString`. -/
def ParameterTypeString : String := "String"

/-- The constant `ssm.ParameterTypeStringList`. -/
def ParameterTypeStringList : String := "StringList"

/-- The constant `ssm.ParameterTypeSecureString`. -/
def ParameterTypeSecureString : String := "SecureString"

/-- The fields of `ssm.Parameter` the code reads; each is a `*string`. -/
structure Parameter where
  Name : Option String
  Type_ : Option String
  Value : Option String
  deriving DecidableEq, Repr

/-- The struct `ssm.GetParameterOutput`: a `*Parameter`. -/
structure GetParameterOutput where
  Parameter : Option Parameter
  deriving DecidableEq, Repr

/-- The struct `ssm.GetParametersByPathOutput`, one page of a listing: a slice of
`*ssm.Parameter`, each of which may be nil. -/
structure GetParametersByPathOutput where
  Parameters : List (Option Parameter)
  deriving DecidableEq, Repr

/-- A call made on the SDK client: a single-parameter fetch, or a paged listing of a
path (one call, within which the SDK sends one request per page). -/
inductive Request where
  | GetParameter (name : String) (withDecryption : Bool)
  | GetParametersByPath (path : String) (recursive : Bool)
  deriving DecidableEq, Repr

/-- The remote service: what it answers to a single-parameter request, which pages
(followed by which error, if any) it delivers for a path, and the log of the
calls made so far (most recent first). -/
structure SSM where
  parameters : String → Bool → Except GoError GetParameterOutput
  byPath : String → Bool → List GetParametersByPathOutput × Option GoError
  requests : List Request

/-- The service after call `r` has been made on it. -/
def SSM.record (svc : SSM) (r : Request) : SSM :=
  { svc with requests := r :: svc.requests }

/-- The call `ssmSvc.GetParameter(&ssm.GetParameterInput{Name, WithDecryption})`. -/
def SSM.GetParameter (svc : SSM) (name : String) (withDecryption : Bool) :
    Except GoError GetParameterOutput × SSM :=
  (svc.parameters name withDecryption, svc.record (.GetParameter name withDecryption))

/-- The pagination loop of the SDK: the callback is run on each delivered page, in
order, until it returns `false` or the pages end; a panic in the callback ends
the loop. -/
def eachPage {σ : Type} (fn : σ → GetParametersByPathOutput → Bool → Outcome (σ × Bool)) :
    List GetParametersByPathOutput → σ → Outcome σ
  | [], acc => .returned acc
  | page :: rest, acc =>
    match fn acc page rest.isEmpty with
    | .panicked msg => .panicked msg
    | .returned (acc', true) => eachPage fn rest acc'
    | .returned (acc', false) => .returned acc'

/-- The call `ssmSvc.GetParametersByPathPages(&ssm.GetParametersByPathInput{Path,
Recursive}, fn)`: the callback's captured variables are threaded as `acc`; the
result is their final value and the paging error. -/
def SSM.GetParametersByPathPages {σ : Type} (svc : SSM) (path : String) (recursive : Bool)
    (fn : σ → GetParametersByPathOutput → Bool → Outcome (σ × Bool)) (acc : σ) :
    Outcome (σ × Option GoError) × SSM :=
  let svc' := svc.record (.GetParametersByPath path recursive)
  match eachPage fn (svc.byPath path recursive).1 acc with
  | .panicked msg => (.panicked msg, svc')
  | .returned acc' => (.returned (acc', (svc.byPath path recursive).2), svc')

/-! ## The expiring map (`gocache.Cache`) -/

/-- The constant `gocache.DefaultExpiration`. -/
def DefaultExpiration : Int := 0

/-- The constant `gocache.NoExpiration`. -/
def NoExpiration : Int := -1

/-- The contents of a Go map with string keys whose elements are strings. -/
abbrev StringMap := String → Option String

/-- The dynamic type and value of an `interface{}` held by the cache.  A
`map[string]interface{}` and a `ParameterGroup` have the same underlying type but
are different types, so a type assertion tells them apart. -/
inductive Value where
  | string (s : String)
  | mapStringInterface (m : StringMap)
  | ParameterGroup (m : StringMap)

/-- A `gocache.Item`: the object and its expiry instant (`0`: never). -/
structure Item where
  Object : Value
  Expiration : Int

/-- The cache: its default TTL and its items. -/
structure Cache where
  defaultExpiration : Int
  items : String → Option Item

/-- The constructor `gocache.New`, called with a zero cleanup interval (no janitor):
a zero default TTL means no expiration. -/
def Cache.New (defaultExpiration : Int) : Cache :=
  { defaultExpiration := if defaultExpiration = 0 then NoExpiration else defaultExpiration
    items := fun _ => none }

/-- The method `cache.Get(k)` at clock reading `now`: an item whose expiry instant
has passed is reported as not found. -/
def Cache.Get (c : Cache) (now : Int) (k : String) : Option Value :=
  match c.items k with
  | none => none
  | some item =>
    if item.Expiration > 0 ∧ now > item.Expiration then none else some item.Object

/-- The `int64` that a computation with mathematical result `x` leaves: signed 64-bit
arithmetic wraps around modulo `2^64` into `[-2^63, 2^63)`. -/
def wrapInt64 (x : Int) : Int :=
  (x + 9223372036854775808) % 18446744073709551616 - 9223372036854775808

/-- The method `cache.Set(k, x, d)` at clock reading `now`: for a positive TTL the
expiry instant is `time.Now().Add(d).UnixNano()`, an `int64` sum. -/
def Cache.Set (c : Cache) (now : Int) (k : String) (x : Value) (d : Int) : Cache :=
  let d := if d = DefaultExpiration then c.defaultExpiration else d
  let e := if d > 0 then wrapInt64 (now + d) else 0
  { c with items := fun k' => if k' = k then some { Object := x, Expiration := e } else c.items k' }

/-- The method `cache.Delete(k)`. -/
def Cache.Delete (c : Cache) (k : String) : Cache :=
  { c with items := fun k' => if k' = k then none else c.items k' }

/-! ## `strings.Split` -/

/-- The position of the first occurrence of `sep` (`strings.Index`; `none` is `-1`). -/
def Index : List Char → Char → Option Nat
  | [], _ => none
  | c :: cs, sep => if c = sep then some 0 else (Index cs sep).map (· + 1)

/-- The number of occurrences of `sep` (`strings.Count`). -/
def Count (s : List Char) (sep : Char) : Nat :=
  s.count sep

/-- The loop of `genSplit`, run for at most `n` cuts: the text before the first
separator is an element, and the loop goes on after that separator. -/
def genSplitLoop (sep : Char) : Nat → List Char → List (List Char)
  | 0, s => [s]
  | n + 1, s =>
    match Index s sep with
    | none => [s]
    | some m => s.take m :: genSplitLoop sep n (s.drop (m + 1))

/-- The function `strings.Split(s, sep)` for a one-character separator, that is
`genSplit(s, sep, 0, -1)`: the slice is sized `Count(s, sep) + 1`, clamped to
`len(s) + 1` (a clamp that never applies, a string having no more separators than
characters), and the loop cuts at one separator per remaining slot. -/
def Split (s : String) (sep : Char) : List String :=
  let n := min (Count s.data sep + 1) (s.data.length + 1)
  (genSplitLoop sep (n - 1) s.data).map String.mk

/-! ## The cache client (`ssmCacheImpl`) -/

/-- The receiver: the remote service and the cache. -/
structure ssmCacheImpl where
  ssmSvc : SSM
  cache : Cache

/-- The constructor `NewClientWithSession`, given the service built from the session. -/
def NewClientWithSession (svc : SSM) (defaultExpiry : Int) : ssmCacheImpl :=
  { ssmSvc := svc, cache := Cache.New defaultExpiry }

/-- The method `getParameter`. -/
def ssmCacheImpl.getParameter (ssmCache : ssmCacheImpl) (later : Int) (paramName : String)
    (encrypted : Bool) (paramType : String) (expiry : Int) :
    Outcome (String × Option GoError) × ssmCacheImpl :=
  let (paramValueOutput, svc) := ssmCache.ssmSvc.GetParameter paramName encrypted
  let ssmCache := { ssmCache with ssmSvc := svc }
  match paramValueOutput with
  | .error paramValueOutputErr => (.returned ("", some paramValueOutputErr), ssmCache)
  | .ok out =>
    match out.Parameter with
    | none => (.panicked nilDereference, ssmCache)
    | some parameter =>
      match parameter.Type_ with
      | none => (.panicked nilDereference, ssmCache)
      | some type =>
        if type ≠ paramType then
          (.returned ("", some (.errorf
            ("Parameter " ++ paramName ++ " is type " ++ type ++ ", not type " ++ paramType))),
            ssmCache)
        else
          let paramValue := match parameter.Value with
            | some v => v
            | none => ""
          (.returned (paramValue, none),
            { ssmCache with
              cache := ssmCache.cache.Set later paramName (.string paramValue) expiry })

/-- The method `Purge`. -/
def ssmCacheImpl.Purge (ssmCache : ssmCacheImpl) (paramName : String) : ssmCacheImpl :=
  { ssmCache with cache := ssmCache.cache.Delete paramName }

/-- The method `GetExpiringString`. -/
def ssmCacheImpl.GetExpiringString (ssmCache : ssmCacheImpl) (now later : Int)
    (paramName : String) (expiry : Int) : Outcome (String × Option GoError) × ssmCacheImpl :=
  match ssmCache.cache.Get now paramName with
  | some value =>
    match value with
    | .string stringValue => (.returned (stringValue, none), ssmCache)
    | _ => (.returned ("", some (.errorf ("Failed to type assert cached param: " ++ paramName))),
        ssmCache)
  | none =>
    match ssmCache.getParameter later paramName false ParameterTypeString expiry with
    | (.panicked msg, ssmCache') => (.panicked msg, ssmCache')
    | (.returned (newValue, newValueErr), ssmCache') =>
      match newValueErr with
      | some err =>
        (.returned ("", some (.wrapf err ("Attempting to get parameter: " ++ paramName))),
          ssmCache')
      | none => (.returned (newValue, none), ssmCache')

/-- The method `GetString`. -/
def ssmCacheImpl.GetString (ssmCache : ssmCacheImpl) (now later : Int) (paramName : String) :
    Outcome (String × Option GoError) × ssmCacheImpl :=
  ssmCache.GetExpiringString now later paramName DefaultExpiration

/-- The method `GetStringList`. -/
def ssmCacheImpl.GetStringList (ssmCache : ssmCacheImpl) (_now _later : Int)
    (_paramName : String) : Outcome (Option (List String) × Option GoError) × ssmCacheImpl :=
  (.returned (none, none), ssmCache)

/-- The method `GetExpiringStringList`. -/
def ssmCacheImpl.GetExpiringStringList (ssmCache : ssmCacheImpl) (now later : Int)
    (paramName : String) (expiry : Int) :
    Outcome (Option (List String) × Option GoError) × ssmCacheImpl :=
  match ssmCache.cache.Get now paramName with
  | some value =>
    match value with
    | .string stringValue => (.returned (some (Split stringValue ','), none), ssmCache)
    | _ => (.returned (none, some (.errorf ("Failed to type assert cached param: " ++ paramName))),
        ssmCache)
  | none =>
    match ssmCache.getParameter later paramName false ParameterTypeStringList expiry with
    | (.panicked msg, ssmCache') => (.panicked msg, ssmCache')
    | (.returned (newValue, newValueErr), ssmCache') =>
      match newValueErr with
      | some err =>
        (.returned (none, some (.wrapf err ("Attempting to get parameter: " ++ paramName))),
          ssmCache')
      | none => (.returned (some (Split newValue ','), none), ssmCache')

/-- The method `GetExpiringSecureString`. -/
def ssmCacheImpl.GetExpiringSecureString (ssmCache : ssmCacheImpl) (now later : Int)
    (paramName : String) (expiry : Int) : Outcome (String × Option GoError) × ssmCacheImpl :=
  match ssmCache.cache.Get now paramName with
  | some value =>
    match value with
    | .string stringValue => (.returned (stringValue, none), ssmCache)
    | _ => (.returned ("", some (.errorf ("Failed to type assert cached param: " ++ paramName))),
        ssmCache)
  | none =>
    match ssmCache.getParameter later paramName true ParameterTypeSecureString expiry with
    | (.panicked msg, ssmCache') => (.panicked msg, ssmCache')
    | (.returned (newValue, newValueErr), ssmCache') =>
      match newValueErr with
      | some err =>
        (.returned ("", some (.wrapf err ("Attempting to get parameter: " ++ paramName))),
          ssmCache')
      | none => (.returned (newValue, none), ssmCache')

/-- The method `GetSecureString`. -/
def ssmCacheImpl.GetSecureString (ssmCache : ssmCacheImpl) (now later : Int)
    (paramName : String) : Outcome (String × Option GoError) × ssmCacheImpl :=
  ssmCache.GetExpiringSecureString now later paramName DefaultExpiration

/-- The body of the `for _, eachParam := range page.Parameters` loop: each parameter
is written into `paramMap` under its name; reading `eachParam.Value` of a nil
element and dereferencing a nil name are nil dereferences. -/
def rangeParameters : List (Option Parameter) → StringMap → Outcome StringMap
  | [], paramMap => .returned paramMap
  | eachParam :: rest, paramMap =>
    match eachParam with
    | none => .panicked nilDereference
    | some parameter =>
      let value := match parameter.Value with
        | some v => v
        | none => ""
      match parameter.Name with
      | none => .panicked nilDereference
      | some name => rangeParameters rest (fun k => if k = name then some value else paramMap k)

/-- The page callback passed to `GetParametersByPathPages`; it always asks for the
next page. -/
def pageCallback (paramMap : StringMap) (page : GetParametersByPathOutput) (_lastPage : Bool) :
    Outcome (StringMap × Bool) :=
  match rangeParameters page.Parameters paramMap with
  | .panicked msg => .panicked msg
  | .returned paramMap' => .returned (paramMap', true)

/-- The method `GetExpiringParameterGroup`.  The returned `ParameterGroup` is given as
its contents; `none` is the nil map. -/
def ssmCacheImpl.GetExpiringParameterGroup (ssmCache : ssmCacheImpl) (now later : Int)
    (groupKey : String) (ssmKeyPath : String) (expiry : Int) :
    Outcome (Option StringMap × Option GoError) × ssmCacheImpl :=
  match ssmCache.cache.Get now groupKey with
  | some value =>
    match value with
    | .ParameterGroup paramGroup => (.returned (some paramGroup, none), ssmCache)
    | _ =>
      (.returned (none, some (.errorf
        ("Failed to type assert cached ParameterGroup type: " ++ groupKey))), ssmCache)
  | none =>
    match ssmCache.ssmSvc.GetParametersByPathPages ssmKeyPath true pageCallback (fun _ => none) with
    | (.panicked msg, svc) => (.panicked msg, { ssmCache with ssmSvc := svc })
    | (.returned (paramMap, pagingErr), svc) =>
      match pagingErr with
      | some err =>
        (.returned (none, some (.wrapf err
          ("Failed to page through all parameters in SSM tree: " ++ ssmKeyPath))),
          { ssmCache with ssmSvc := svc })
      | none =>
        (.returned (some paramMap, none),
          { ssmSvc := svc
            cache := ssmCache.cache.Set later groupKey (.mapStringInterface paramMap) expiry })

/-- The method `GetParameterGroup`. -/
def ssmCacheImpl.GetParameterGroup (ssmCache : ssmCacheImpl) (now later : Int)
    (groupKey : String) (ssmKeyPath : String) :
    Outcome (Option StringMap × Option GoError) × ssmCacheImpl :=
  ssmCache.GetExpiringParameterGroup now later groupKey ssmKeyPath DefaultExpiration

/-- The method `GetExpiringString` with the two things in which the secure accessor is
said to differ from it left open: the decryption flag of the remote request and
the expected declared type.  The body is that of `GetExpiringString`, `false` and
`ssm.ParameterTypeString` replaced by the two arguments. -/
def ssmCacheImpl.GetExpiringStringWith (withDecryption : Bool) (expectedType : String)
    (ssmCache : ssmCacheImpl) (now later : Int) (paramName : String) (expiry : Int) :
    Outcome (String × Option GoError) × ssmCacheImpl :=
  match ssmCache.cache.Get now paramName with
  | some value =>
    match value with
    | .string stringValue => (.returned (stringValue, none), ssmCache)
    | _ => (.returned ("", some (.errorf ("Failed to type assert cached param: " ++ paramName))),
        ssmCache)
  | none =>
    match ssmCache.getParameter later paramName withDecryption expectedType expiry with
    | (.panicked msg, ssmCache') => (.panicked msg, ssmCache')
    | (.returned (newValue, newValueErr), ssmCache') =>
      match newValueErr with
      | some err =>
        (.returned ("", some (.wrapf err ("Attempting to get parameter: " ++ paramName))),
          ssmCache')
      | none => (.returned (newValue, none), ssmCache')

/-! ## Concrete stores used to exercise the definitions -/

/-- A remote store that holds one parameter and answers `ParameterNotFound` for any
other name; its path listing is empty. -/
def singleParameterStore (name type : String) (value : Option String) : SSM :=
  { parameters := fun n _ =>
      if n = name then
        .ok { Parameter := some { Name := some name, Type_ := some type, Value := value } }
      else .error (.sdk "ParameterNotFound")
    byPath := fun _ _ => ([], none)
    requests := [] }

/-- A remote store in which every request fails. -/
def unreachableStore : SSM :=
  { parameters := fun _ _ => .error (.sdk "RequestError")
    byPath := fun _ _ => ([], some (.sdk "RequestError"))
    requests := [] }

/-- A remote store whose subtree `/app/` is delivered in two pages. -/
def twoPageStore : SSM :=
  { parameters := fun _ _ => .error (.sdk "ParameterNotFound")
    byPath := fun path _ =>
      if path = "/app/" then
        ([{ Parameters :=
              [some { Name := some "/app/a", Type_ := some "String", Value := some "1" }] },
          { Parameters :=
              [some { Name := some "/app/b", Type_ := some "String", Value := some "2" }] }],
          none)
      else ([], none)
    requests := [] }

/-- A remote store whose subtree `/app/` delivers one page and then fails. -/
def brokenPageStore : SSM :=
  { parameters := fun _ _ => .error (.sdk "ParameterNotFound")
    byPath := fun path _ =>
      if path = "/app/" then
        ([{ Parameters :=
              [some { Name := some "/app/a", Type_ := some "String", Value := some "1" }] }],
          some (.sdk "ThrottlingException"))
      else ([], none)
    requests := [] }

/-- A remote store that reports no error but leaves fields out: the parameter
`untyped` comes without a declared type, any other name gets a response without
a parameter object, and every path lists one parameter without a name. -/
def incompleteStore : SSM :=
  { parameters := fun n _ =>
      if n = "untyped" then
        .ok { Parameter := some { Name := some n, Type_ := none, Value := some "v" } }
      else .ok { Parameter := none }
    byPath := fun _ _ =>
      ([{ Parameters := [some { Name := none, Type_ := some "String", Value := some "1" }] }],
        none)
    requests := [] }

/-- A remote store whose listing of `/app/` delivers a page holding a parameter
without a name and then fails; the listing of `/nil/` delivers, without error, a
page whose only element is nil. -/
def brokenIncompleteStore : SSM :=
  { parameters := fun _ _ => .error (.sdk "ParameterNotFound")
    byPath := fun path _ =>
      if path = "/app/" then
        ([{ Parameters := [some { Name := none, Type_ := some "String", Value := some "1" }] }],
          some (.sdk "ThrottlingException"))
      else if path = "/nil/" then ([{ Parameters := [none] }], none)
      else ([], none)
    requests := [] }

/-! ## Facts about `strings.Split` -/

theorem Index_eq_none {sep : Char} : ∀ {s : List Char}, Index s sep = none → s.count sep = 0
  | [], _ => rfl
  | c :: cs, h => by
    unfold Index at h
    split at h
    · cases h
    · rename_i hc
      have h' : Index cs sep = none := by simpa using h
      rw [List.count_cons_of_ne (Ne.symm hc)]
      exact Index_eq_none h'

theorem Index_eq_some {sep : Char} : ∀ {s : List Char} {m : Nat}, Index s sep = some m →
    s = s.take m ++ sep :: s.drop (m + 1) ∧ sep ∉ s.take m ∧
      s.count sep = (s.drop (m + 1)).count sep + 1
  | [], _, h => by cases h
  | c :: cs, m, h => by
    unfold Index at h
    split at h
    · rename_i hc
      cases h
      subst hc
      simp
    · rename_i hc
      obtain ⟨m', hm', rfl⟩ : ∃ m', Index cs sep = some m' ∧ m' + 1 = m := by
        simpa [Option.map_eq_some'] using h
      obtain ⟨h1, h2, h3⟩ := Index_eq_some hm'
      refine ⟨?_, ?_, ?_⟩
      · simpa using h1
      · simp only [List.take_succ_cons, List.mem_cons, not_or]
        exact ⟨Ne.symm hc, h2⟩
      · rw [List.count_cons_of_ne (Ne.symm hc)]
        simpa using h3

theorem genSplitLoop_length (sep : Char) : ∀ (n : Nat) (s : List Char), s.count sep ≤ n →
    (genSplitLoop sep n s).length = s.count sep + 1
  | 0, s, h => by simp [genSplitLoop, Nat.le_zero.mp h]
  | n + 1, s, h => by
    unfold genSplitLoop
    split
    · rename_i hi
      simp [Index_eq_none hi]
    · rename_i m hi
      obtain ⟨-, -, h3⟩ := Index_eq_some hi
      rw [List.length_cons, genSplitLoop_length sep n _ (by omega), h3]

theorem genSplitLoop_not_mem (sep : Char) : ∀ (n : Nat) (s : List Char), s.count sep ≤ n →
    ∀ e ∈ genSplitLoop sep n s, sep ∉ e
  | 0, s, h => by
    intro e he
    simp only [genSplitLoop, List.mem_singleton] at he
    subst he
    exact List.count_eq_zero.mp (Nat.le_zero.mp h)
  | n + 1, s, h => by
    intro e he
    unfold genSplitLoop at he
    split at he
    · rename_i hi
      simp only [List.mem_singleton] at he
      subst he
      exact List.count_eq_zero.mp (Index_eq_none hi)
    · rename_i m hi
      obtain ⟨-, h2, h3⟩ := Index_eq_some hi
      rcases List.mem_cons.mp he with rfl | he
      · exact h2
      · exact genSplitLoop_not_mem sep n _ (by omega) e he

theorem genSplitLoop_intercalate (sep : Char) : ∀ (n : Nat) (s : List Char),
    [sep].intercalate (genSplitLoop sep n s) = s
  | 0, s => by simp [genSplitLoop, List.intercalate]
  | n + 1, s => by
    unfold genSplitLoop
    split
    · simp [List.intercalate]
    · rename_i m hi
      obtain ⟨h1, -, -⟩ := Index_eq_some hi
      have ih := genSplitLoop_intercalate sep n (s.drop (m + 1))
      have hne : genSplitLoop sep n (s.drop (m + 1)) ≠ [] := by
        cases n <;> unfold genSplitLoop <;> [simp; split <;> simp]
      obtain ⟨x, xs, hx⟩ := List.exists_cons_of_ne_nil hne
      rw [hx] at ih ⊢
      conv_rhs => rw [h1, ← ih]
      simp [List.intercalate, List.intersperse]


theorem intercalate_go_data (sep : String) : ∀ (l : List String) (acc : String),
    (String.intercalate.go acc sep l).data
      = acc.data ++ (l.map (fun a => sep.data ++ a.data)).flatten
  | [], acc => by simp [String.intercalate.go]
  | a :: l, acc => by
    simp [String.intercalate.go, intercalate_go_data sep l, List.append_assoc]

theorem list_intercalate_cons (sep : List Char) : ∀ (x : List Char) (xs : List (List Char)),
    sep.intercalate (x :: xs) = x ++ (xs.map (fun a => sep ++ a)).flatten
  | x, [] => by simp [List.intercalate]
  | x, y :: ys => by
    have ih := list_intercalate_cons sep y ys
    simp only [List.intercalate, List.intersperse, List.flatten_cons, List.map_cons] at ih ⊢
    rw [ih]
    simp

theorem intercalate_data (sep : String) (l : List String) :
    (String.intercalate sep l).data = sep.data.intercalate (l.map String.data) := by
  cases l with
  | nil => simp [String.intercalate, List.intercalate]
  | cons a l =>
    rw [List.map_cons, list_intercalate_cons, String.intercalate, intercalate_go_data]
    simp [List.map_map, Function.comp_def]

theorem Split_data (s : String) (sep : Char) :
    (Split s sep).map String.data = genSplitLoop sep (Count s.data sep) s.data := by
  have h : s.data.count sep ≤ s.data.length := List.count_le_length _ _
  simp only [Split, Count, List.map_map]
  rw [show min (s.data.count sep + 1) (s.data.length + 1) - 1 = s.data.count sep by omega]
  simp [Function.comp_def]

/-! ## Facts about the cache and the single-parameter accessors -/

theorem Cache.Get_of_items {c : Cache} {now : Int} {k : String} {v : Value}
    (h : c.Get now k = some v) : ∃ item, c.items k = some item ∧ item.Object = v := by
  unfold Cache.Get at h
  split at h
  · cases h
  · rename_i item hitem
    split at h
    · cases h
    · exact ⟨item, hitem, by simpa using h⟩

theorem Cache.Get_eq_of_isSome {c : Cache} {now : Int} {k : String} {item : Item}
    (hitem : c.items k = some item) (h : (c.Get now k).isSome) :
    c.Get now k = some item.Object := by
  unfold Cache.Get at h ⊢
  rw [hitem] at h ⊢
  simp only at h ⊢
  split
  · rename_i hexp
    simp [hexp] at h
  · rfl

theorem Cache.Set_items_self (c : Cache) (now : Int) (k : String) (x : Value) (d : Int) :
    (c.Set now k x d).items k
      = some { Object := x
               Expiration :=
                 if (if d = DefaultExpiration then c.defaultExpiration else d) > 0
                 then wrapInt64 (now + (if d = DefaultExpiration then c.defaultExpiration else d))
                 else 0 } := by
  simp [Cache.Set]

theorem wrapInt64_of_range {x : Int} (hlo : -9223372036854775808 ≤ x)
    (hhi : x < 9223372036854775808) : wrapInt64 x = x := by
  unfold wrapInt64
  omega

theorem Cache.Set_items_of_ne (c : Cache) (now : Int) (k : String) (x : Value) (d : Int)
    {k' : String} (h : k' ≠ k) : (c.Set now k x d).items k' = c.items k' := by
  simp [Cache.Set, h]

theorem getParameter_returned {s s1 : ssmCacheImpl} {later : Int} {k : String} {enc : Bool}
    {ty : String} {ttl : Int} {V : String}
    (h : s.getParameter later k enc ty ttl = (.returned (V, none), s1)) :
    s1 = { ssmSvc := (s.ssmSvc.GetParameter k enc).2
           cache := s.cache.Set later k (.string V) ttl } := by
  unfold ssmCacheImpl.getParameter at h
  simp only at h
  split at h
  · simp at h
  · split at h
    · simp at h
    · split at h
      · simp at h
      · split at h
        · simp at h
        · simp only [Prod.mk.injEq, Outcome.returned.injEq, and_true] at h
          obtain ⟨hv, rfl⟩ := h
          simp [hv]

theorem GetExpiringString_entry {s s1 : ssmCacheImpl} {now later : Int} {k : String} {ttl : Int}
    {V : String} (h : s.GetExpiringString now later k ttl = (.returned (V, none), s1)) :
    ∃ item, s1.cache.items k = some item ∧ item.Object = .string V := by
  unfold ssmCacheImpl.GetExpiringString at h
  split at h
  · rename_i value hget
    split at h
    · simp only [Prod.mk.injEq, Outcome.returned.injEq, and_true] at h
      obtain ⟨rfl, rfl⟩ := h
      exact Cache.Get_of_items hget
    · simp at h
  · split at h
    · simp at h
    · rename_i newValue newValueErr s' hgp
      split at h
      · simp at h
      · simp only [Prod.mk.injEq, Outcome.returned.injEq, and_true] at h
        obtain ⟨rfl, rfl⟩ := h
        rw [getParameter_returned hgp]
        exact ⟨_, Cache.Set_items_self _ _ _ _ _, rfl⟩

theorem GetExpiringString_hit {s : ssmCacheImpl} {now : Int} {k : String} {V : String}
    (h : s.cache.Get now k = some (.string V)) (later ttl : Int) :
    s.GetExpiringString now later k ttl = (.returned (V, none), s) := by
  simp [ssmCacheImpl.GetExpiringString, h]

/-- C1 (cache hit fidelity for scalars): if `GetExpiringString k ttl` returns `(V, nil)`,
then at any later clock reading at which the entry under `k` has not expired, and
whatever the remote store now answers, both `GetExpiringString k ttl'` and
`GetString k` return `(V, nil)` and leave the whole state as it was: the cache
(entry and expiry included) is the same and the request log has not grown. -/
theorem cache_hit_fidelity_scalar (s s1 : ssmCacheImpl) (now later : Int) (k : String)
    (ttl : Int) (V : String)
    (hfirst : s.GetExpiringString now later k ttl = (.returned (V, none), s1))
    (now' later' : Int) (hfresh : (s1.cache.Get now' k).isSome)
    (svc' : SSM) (ttl' : Int) :
    ({ s1 with ssmSvc := svc' }).GetExpiringString now' later' k ttl'
        = (.returned (V, none), { s1 with ssmSvc := svc' }) ∧
    ({ s1 with ssmSvc := svc' }).GetString now' later' k
        = (.returned (V, none), { s1 with ssmSvc := svc' }) := by
  obtain ⟨item, hitem, hobj⟩ := GetExpiringString_entry hfirst
  have hget : s1.cache.Get now' k = some (.string V) := by
    rw [Cache.Get_eq_of_isSome hitem hfresh, hobj]
  have hget' : ({ s1 with ssmSvc := svc' } : ssmCacheImpl).cache.Get now' k
      = some (.string V) := hget
  exact ⟨GetExpiringString_hit hget' _ _, GetExpiringString_hit hget' _ _⟩

theorem getParameter_ok {s : ssmCacheImpl} {k : String} {enc : Bool} {p : Parameter}
    {ty : String}
    (hremote : s.ssmSvc.parameters k enc = .ok { Parameter := some p })
    (htype : p.Type_ = some ty) (later ttl : Int) :
    s.getParameter later k enc ty ttl
      = (.returned (p.Value.getD "", none),
          { ssmSvc := s.ssmSvc.record (.GetParameter k enc)
            cache := s.cache.Set later k (.string (p.Value.getD "")) ttl }) := by
  unfold ssmCacheImpl.getParameter SSM.GetParameter
  simp only [hremote, htype]
  cases p.Value <;> simp

theorem GetExpiringString_miss_ok {s : ssmCacheImpl} {now : Int} {k : String} {p : Parameter}
    (hmiss : s.cache.Get now k = none)
    (hremote : s.ssmSvc.parameters k false = .ok { Parameter := some p })
    (htype : p.Type_ = some ParameterTypeString) (later ttl : Int) :
    s.GetExpiringString now later k ttl
      = (.returned (p.Value.getD "", none),
          { ssmSvc := s.ssmSvc.record (.GetParameter k false)
            cache := s.cache.Set later k (.string (p.Value.getD "")) ttl }) := by
  unfold ssmCacheImpl.GetExpiringString
  rw [hmiss]
  simp only [getParameter_ok hremote htype]

/-- C2 (scalar miss path): with no unexpired entry under `name`, when the remote
answers the undecrypted request with a parameter of declared type `String`,
`GetExpiringString name ttl` returns its value (the empty string for an absent
value) with a nil error, after one remote call, and the cache is the old one with
`name` set to that scalar string by `cache.Set` with the requested TTL.  The item
stored holds the string and the expiry instant `cache.Set` computes: the `int64`
sum of the clock reading and the TTL for a positive `ttl` (the sum itself when it
fits an `int64`), that of the clock reading and the default TTL for the sentinel
`0` with a positive default, and `0` (never) otherwise.  `GetString name` does the
same with the default-TTL sentinel. -/
theorem scalar_miss_path (s : ssmCacheImpl) (now later : Int) (name : String) (ttl : Int)
    (p : Parameter)
    (hmiss : s.cache.Get now name = none)
    (hremote : s.ssmSvc.parameters name false = .ok { Parameter := some p })
    (htype : p.Type_ = some "String") :
    s.GetExpiringString now later name ttl
      = (.returned (p.Value.getD "", none),
          { ssmSvc := s.ssmSvc.record (.GetParameter name false)
            cache := s.cache.Set later name (.string (p.Value.getD "")) ttl }) ∧
    (s.cache.Set later name (.string (p.Value.getD "")) ttl).items name
      = some { Object := .string (p.Value.getD "")
               Expiration :=
                 if 0 < ttl then wrapInt64 (later + ttl)
                 else if ttl = 0 ∧ 0 < s.cache.defaultExpiration
                   then wrapInt64 (later + s.cache.defaultExpiration)
                 else 0 } ∧
    (0 < ttl → -9223372036854775808 ≤ later + ttl → later + ttl < 9223372036854775808 →
      (s.cache.Set later name (.string (p.Value.getD "")) ttl).items name
        = some { Object := .string (p.Value.getD ""), Expiration := later + ttl }) ∧
    s.GetString now later name
      = (.returned (p.Value.getD "", none),
          { ssmSvc := s.ssmSvc.record (.GetParameter name false)
            cache := s.cache.Set later name (.string (p.Value.getD "")) DefaultExpiration }) ∧
    (s.cache.Set later name (.string (p.Value.getD "")) DefaultExpiration).items name
      = some { Object := .string (p.Value.getD "")
               Expiration :=
                 if 0 < s.cache.defaultExpiration
                   then wrapInt64 (later + s.cache.defaultExpiration)
                 else 0 } := by
  have hitem : (s.cache.Set later name (.string (p.Value.getD "")) ttl).items name
      = some { Object := .string (p.Value.getD "")
               Expiration :=
                 if 0 < ttl then wrapInt64 (later + ttl)
                 else if ttl = 0 ∧ 0 < s.cache.defaultExpiration
                   then wrapInt64 (later + s.cache.defaultExpiration)
                 else 0 } := by
    rw [Cache.Set_items_self]
    simp only [DefaultExpiration, gt_iff_lt]
    congr 2
    split_ifs <;> first | rfl | omega
  refine ⟨GetExpiringString_miss_ok hmiss hremote htype _ _, hitem, fun hpos hlo hhi => ?_,
    GetExpiringString_miss_ok hmiss hremote htype _ _, ?_⟩
  · rw [hitem, if_pos hpos, wrapInt64_of_range hlo hhi]
  · rw [Cache.Set_items_self]
    simp [DefaultExpiration]

/-- The scalar miss path on the `/app/db-host` scenario: the default-TTL accessor, the
item stored for a TTL of `60`, and the item stored for the largest TTL, whose
expiry instant has wrapped around. -/
theorem scalar_miss_path_witness :
    (NewClientWithSession (singleParameterStore "/app/db-host" "String" (some "db.internal"))
        3600).cache.Get 0 "/app/db-host" = none ∧
    (NewClientWithSession (singleParameterStore "/app/db-host" "String" (some "db.internal"))
        3600).GetString 0 1 "/app/db-host"
      = (.returned ("db.internal", none),
          { ssmSvc := (singleParameterStore "/app/db-host" "String"
              (some "db.internal")).record (.GetParameter "/app/db-host" false)
            cache := (Cache.New 3600).Set 1 "/app/db-host" (.string "db.internal")
              DefaultExpiration }) ∧
    ((Cache.New 3600).Set 1 "/app/db-host" (.string "db.internal") 60).items "/app/db-host"
      = some { Object := .string "db.internal", Expiration := 61 } ∧
    ((Cache.New 3600).Set 1793799773847139987 "/app/db-host" (.string "db.internal")
        9223372036854775807).items "/app/db-host"
      = some { Object := .string "db.internal", Expiration := -7429572263007635822 } :=
  have h := scalar_miss_path
    (NewClientWithSession (singleParameterStore "/app/db-host" "String" (some "db.internal")) 3600)
    0 1 "/app/db-host" 60 { Name := some "/app/db-host", Type_ := some "String",
                            Value := some "db.internal" }
    rfl rfl rfl
  ⟨rfl, h.2.2.2.1, h.2.2.1 (by decide) (by decide) (by decide),
    (scalar_miss_path
      (NewClientWithSession (singleParameterStore "/app/db-host" "String" (some "db.internal"))
        3600)
      0 1793799773847139987 "/app/db-host" 9223372036854775807
      { Name := some "/app/db-host", Type_ := some "String", Value := some "db.internal" }
      rfl rfl rfl).2.1⟩

/-! ## The parameter-group accessor -/

theorem rangeParameters_returned : ∀ (es : List (Option Parameter)) (m : StringMap),
    (∀ e ∈ es, ∃ q, e = some q ∧ q.Name.isSome) →
    ∃ m', rangeParameters es m = .returned m' ∧
      ∀ n, m' n = ((es.reverse.find? (fun e => e.bind (·.Name) = some n)).map
        (fun e => (e.bind (·.Value)).getD "")).or (m n)
  | [], m, _ => ⟨m, rfl, fun n => by simp⟩
  | e :: es, m, h => by
    obtain ⟨q, rfl, hq⟩ := h e (List.mem_cons_self _ _)
    obtain ⟨name, hname⟩ := Option.isSome_iff_exists.mp hq
    obtain ⟨m', hm', hspec⟩ := rangeParameters_returned es
      (fun k => if k = name then some (q.Value.getD "") else m k)
      (fun e' he' => h e' (List.mem_cons_of_mem _ he'))
    refine ⟨m', ?_, fun n => ?_⟩
    · rw [← hm']
      simp only [rangeParameters, hname]
      cases q.Value <;> rfl
    · rw [hspec n, List.reverse_cons, List.find?_append, List.find?_singleton]
      cases es.reverse.find? (fun e => decide (e.bind (·.Name) = some n)) with
      | some e' => simp
      | none =>
        by_cases hn : n = name
        · simp [hn, hname]
        · have : ¬ name = n := fun h' => hn h'.symm
          simp [hn, hname, this]

theorem eachPage_returned : ∀ (pages : List GetParametersByPathOutput) (m : StringMap),
    (∀ page ∈ pages, ∀ e ∈ page.Parameters, ∃ q, e = some q ∧ q.Name.isSome) →
    ∃ m', eachPage pageCallback pages m = .returned m' ∧
      ∀ n, m' n = (((pages.map (·.Parameters)).flatten.reverse.find?
        (fun e => e.bind (·.Name) = some n)).map (fun e => (e.bind (·.Value)).getD "")).or (m n)
  | [], m, _ => ⟨m, rfl, fun n => by simp⟩
  | page :: pages, m, h => by
    obtain ⟨m1, hm1, hspec1⟩ := rangeParameters_returned page.Parameters m
      (h page (List.mem_cons_self _ _))
    obtain ⟨m', hm', hspec⟩ := eachPage_returned pages m1
      (fun page' hp => h page' (List.mem_cons_of_mem _ hp))
    refine ⟨m', ?_, fun n => ?_⟩
    · rw [← hm']
      simp only [eachPage, pageCallback, hm1]
    · rw [hspec n, hspec1 n, List.map_cons, List.flatten_cons, List.reverse_append,
        List.find?_append]
      cases ((pages.map (·.Parameters)).flatten.reverse.find?
        (fun e => decide (e.bind (·.Name) = some n))) <;> simp

theorem GetExpiringParameterGroup_miss {s : ssmCacheImpl} {now : Int} {g : String}
    (hmiss : s.cache.Get now g = none) (later : Int) (p : String) (ttl : Int) :
    s.GetExpiringParameterGroup now later g p ttl
      = match eachPage pageCallback (s.ssmSvc.byPath p true).1 (fun _ => none) with
        | .panicked msg =>
          (.panicked msg,
            { s with ssmSvc := s.ssmSvc.record (.GetParametersByPath p true) })
        | .returned paramMap =>
          match (s.ssmSvc.byPath p true).2 with
          | some err =>
            (.returned (none, some (.wrapf err
              ("Failed to page through all parameters in SSM tree: " ++ p))),
              { s with ssmSvc := s.ssmSvc.record (.GetParametersByPath p true) })
          | none =>
            (.returned (some paramMap, none),
              { ssmSvc := s.ssmSvc.record (.GetParametersByPath p true)
                cache := s.cache.Set later g (.mapStringInterface paramMap) ttl }) := by
  unfold ssmCacheImpl.GetExpiringParameterGroup SSM.GetParametersByPathPages
  rw [hmiss]
  simp only
  cases eachPage pageCallback (s.ssmSvc.byPath p true).1 (fun _ => none) with
  | panicked msg => rfl
  | returned paramMap => cases h : (s.ssmSvc.byPath p true).2 <;> simp

/-- C4 (counterexample): the listing of every path of `incompleteStore` delivers one
page without error, and the listing of `/nil/` of `brokenIncompleteStore` does
too; the cache holds nothing under `appcfg`; yet `GetExpiringParameterGroup`
returns no mapping: it panics on the nameless parameter, and on the nil element,
and caches nothing. -/
theorem group_fetch_aborts_on_nameless_page :
    (NewClientWithSession incompleteStore 3600).cache.Get 0 "appcfg" = none ∧
    incompleteStore.byPath "/app/" true
      = ([{ Parameters := [some { Name := none, Type_ := some "String", Value := some "1" }] }],
          none) ∧
    (NewClientWithSession incompleteStore 3600).GetExpiringParameterGroup 0 0 "appcfg" "/app/" 60
      = (.panicked nilDereference,
          { NewClientWithSession incompleteStore 3600 with
            ssmSvc := incompleteStore.record (.GetParametersByPath "/app/" true) }) ∧
    brokenIncompleteStore.byPath "/nil/" true = ([{ Parameters := [none] }], none) ∧
    (NewClientWithSession brokenIncompleteStore 3600).GetExpiringParameterGroup 0 0 "appcfg"
        "/nil/" 60
      = (.panicked nilDereference,
          { NewClientWithSession brokenIncompleteStore 3600 with
            ssmSvc := brokenIncompleteStore.record (.GetParametersByPath "/nil/" true) }) :=
  ⟨rfl, rfl, rfl, rfl, rfl⟩

/-- C4 (as amended, group aggregation on a miss): with no unexpired entry under `g`,
when the enumeration of `p` delivers `pages` without error and every element
listed in them is a parameter (not nil) that has a name,
`GetExpiringParameterGroup g p ttl` returns a mapping `M` with a nil error, where
the keys of `M` are exactly the names occurring in some page and each name is
mapped to the value of its last occurrence in page order (the empty string for
an absent value); the resulting cache is the old one with `g` set to `M`, so `M`
is stored under `g` and every other key keeps its item. -/
theorem group_aggregation_on_miss (s : ssmCacheImpl) (now later : Int) (g p : String)
    (ttl : Int) (pages : List GetParametersByPathOutput)
    (hmiss : s.cache.Get now g = none)
    (hpages : s.ssmSvc.byPath p true = (pages, none))
    (hnames : ∀ page ∈ pages, ∀ x ∈ page.Parameters, ∃ q, x = some q ∧ q.Name.isSome) :
    ∃ M : StringMap,
      s.GetExpiringParameterGroup now later g p ttl
        = (.returned (some M, none),
            { ssmSvc := s.ssmSvc.record (.GetParametersByPath p true)
              cache := s.cache.Set later g (.mapStringInterface M) ttl }) ∧
      (∀ n, (M n).isSome ↔
        ∃ page ∈ pages, ∃ q : Parameter, some q ∈ page.Parameters ∧ q.Name = some n) ∧
      (∀ n, M n = ((pages.map (·.Parameters)).flatten.reverse.find?
          (fun e => e.bind (·.Name) = some n)).map (fun e => (e.bind (·.Value)).getD "")) ∧
      (∃ e, (s.cache.Set later g (.mapStringInterface M) ttl).items g
          = some { Object := .mapStringInterface M, Expiration := e }) ∧
      (∀ k, k ≠ g →
        (s.cache.Set later g (.mapStringInterface M) ttl).items k = s.cache.items k) := by
  obtain ⟨M, hM, hspec⟩ := eachPage_returned pages (fun _ => none) hnames
  have hlast : ∀ n, M n = ((pages.map (·.Parameters)).flatten.reverse.find?
      (fun e => e.bind (·.Name) = some n)).map (fun e => (e.bind (·.Value)).getD "") :=
    fun n => by rw [hspec n]; simp
  refine ⟨M, ?_, fun n => ?_, hlast, ⟨_, Cache.Set_items_self _ _ _ _ _⟩,
    fun k hk => Cache.Set_items_of_ne _ _ _ _ _ hk⟩
  · rw [GetExpiringParameterGroup_miss hmiss, hpages]
    simp only [hM]
  · rw [hlast n]
    simp only [Option.isSome_map', List.find?_isSome, List.mem_reverse, List.mem_flatten,
      List.mem_map, decide_eq_true_eq]
    constructor
    · rintro ⟨e, ⟨l, ⟨page, hpage, rfl⟩, he⟩, hn⟩
      cases e with
      | none => simp at hn
      | some q => exact ⟨page, hpage, q, he, by simpa using hn⟩
    · rintro ⟨page, hpage, q, hq, hn⟩
      exact ⟨some q, ⟨_, ⟨page, hpage, rfl⟩, hq⟩, by simpa using hn⟩

/-! ## The list accessor -/

theorem Split_length (s : String) (sep : Char) :
    (Split s sep).length = Count s.data sep + 1 := by
  have h := congrArg List.length (Split_data s sep)
  rw [List.length_map] at h
  rw [h]
  exact genSplitLoop_length sep _ _ (le_refl _)

theorem Split_not_mem (s : String) (sep : Char) : ∀ e ∈ Split s sep, sep ∉ e.data := by
  intro e he
  have hmem : e.data ∈ (Split s sep).map String.data := List.mem_map_of_mem _ he
  rw [Split_data] at hmem
  exact genSplitLoop_not_mem sep _ _ (le_refl _) _ hmem

theorem Split_intercalate (s : String) (sep : Char) :
    String.intercalate (String.singleton sep) (Split s sep) = s := by
  apply String.ext
  rw [intercalate_data, Split_data, String.data_singleton, genSplitLoop_intercalate]

theorem GetExpiringStringList_miss_ok {s : ssmCacheImpl} {now : Int} {k : String} {p : Parameter}
    (hmiss : s.cache.Get now k = none)
    (hremote : s.ssmSvc.parameters k false = .ok { Parameter := some p })
    (htype : p.Type_ = some ParameterTypeStringList) (later ttl : Int) :
    s.GetExpiringStringList now later k ttl
      = (.returned (some (Split (p.Value.getD "") ','), none),
          { ssmSvc := s.ssmSvc.record (.GetParameter k false)
            cache := s.cache.Set later k (.string (p.Value.getD "")) ttl }) := by
  unfold ssmCacheImpl.GetExpiringStringList
  rw [hmiss]
  simp only [getParameter_ok hremote htype]

/-- C6 (list splitting): with no unexpired entry under `name`, when the remote answers
with a parameter of declared type `StringList` and value `v` (the empty string when
absent), `GetExpiringStringList name ttl` returns with a nil error the list
`Split v ','`, which has one more element than `v` has commas, has no element
containing a comma, gives back `v` when joined with `,`, and is never empty; for
`a,b,c` it is `[a, b, c]`, and for an empty or absent value it is `[""]`. -/
theorem list_splitting (s : ssmCacheImpl) (now later : Int) (name : String) (ttl : Int)
    (p : Parameter)
    (hmiss : s.cache.Get now name = none)
    (hremote : s.ssmSvc.parameters name false = .ok { Parameter := some p })
    (htype : p.Type_ = some "StringList") :
    ∃ L : List String,
      (s.GetExpiringStringList now later name ttl).1 = .returned (some L, none) ∧
      L = Split (p.Value.getD "") ',' ∧
      L.length = (p.Value.getD "").data.count ',' + 1 ∧
      (∀ e ∈ L, ',' ∉ e.data) ∧
      String.intercalate "," L = p.Value.getD "" ∧
      L ≠ [] ∧
      (p.Value = some "a,b,c" → L = ["a", "b", "c"]) ∧
      (p.Value = some "" ∨ p.Value = none → L = [""]) := by
  refine ⟨Split (p.Value.getD "") ',', ?_, rfl, Split_length _ _, Split_not_mem _ _,
    Split_intercalate _ _, ?_, ?_, ?_⟩
  · rw [GetExpiringStringList_miss_ok hmiss hremote htype]
  · intro h
    have := Split_length (p.Value.getD "") ','
    rw [h] at this
    simp at this
  · intro h
    rw [h]
    decide
  · rintro (h | h) <;> rw [h] <;> decide

/-- List splitting for the remote value `a,b,c`. -/
theorem list_splitting_witness :
    ∃ L : List String,
      ((NewClientWithSession (singleParameterStore "k" "StringList" (some "a,b,c"))
          3600).GetExpiringStringList 0 0 "k" 60).1 = .returned (some L, none) ∧
      L = ["a", "b", "c"] := by
  obtain ⟨L, h1, -, -, -, -, -, h2, -⟩ := list_splitting
    (NewClientWithSession (singleParameterStore "k" "StringList" (some "a,b,c")) 3600)
    0 0 "k" 60 { Name := some "k", Type_ := some "StringList", Value := some "a,b,c" }
    rfl (by simp [NewClientWithSession, singleParameterStore]) rfl
  exact ⟨L, h1, h2 rfl⟩

/-! ## Error paths -/

theorem getParameter_error {s : ssmCacheImpl} {k : String} {enc : Bool} {e : GoError}
    (hremote : s.ssmSvc.parameters k enc = .error e) (later : Int) (ty : String) (ttl : Int) :
    s.getParameter later k enc ty ttl
      = (.returned ("", some e),
          { s with ssmSvc := s.ssmSvc.record (.GetParameter k enc) }) := by
  unfold ssmCacheImpl.getParameter SSM.GetParameter
  simp only [hremote]

theorem getParameter_mismatch {s : ssmCacheImpl} {k : String} {enc : Bool} {p : Parameter}
    {X Y : String}
    (hremote : s.ssmSvc.parameters k enc = .ok { Parameter := some p })
    (htype : p.Type_ = some X) (hne : X ≠ Y) (later ttl : Int) :
    s.getParameter later k enc Y ttl
      = (.returned ("", some (.errorf
          ("Parameter " ++ k ++ " is type " ++ X ++ ", not type " ++ Y))),
          { s with ssmSvc := s.ssmSvc.record (.GetParameter k enc) }) := by
  unfold ssmCacheImpl.getParameter SSM.GetParameter
  simp only [hremote, htype, ne_eq, hne, not_false_eq_true, if_true]

theorem GetExpiringString_miss_error {s s' : ssmCacheImpl} {now later : Int} {k : String}
    {ttl : Int} {v : String} {e : GoError}
    (hmiss : s.cache.Get now k = none)
    (hget : s.getParameter later k false ParameterTypeString ttl = (.returned (v, some e), s')) :
    s.GetExpiringString now later k ttl
      = (.returned ("", some (.wrapf e ("Attempting to get parameter: " ++ k))), s') := by
  unfold ssmCacheImpl.GetExpiringString
  rw [hmiss]
  simp only [hget]

theorem GetExpiringStringList_miss_error {s s' : ssmCacheImpl} {now later : Int} {k : String}
    {ttl : Int} {v : String} {e : GoError}
    (hmiss : s.cache.Get now k = none)
    (hget : s.getParameter later k false ParameterTypeStringList ttl
      = (.returned (v, some e), s')) :
    s.GetExpiringStringList now later k ttl
      = (.returned (none, some (.wrapf e ("Attempting to get parameter: " ++ k))), s') := by
  unfold ssmCacheImpl.GetExpiringStringList
  rw [hmiss]
  simp only [hget]

theorem GetExpiringSecureString_miss_error {s s' : ssmCacheImpl} {now later : Int}
    {k : String} {ttl : Int} {v : String} {e : GoError}
    (hmiss : s.cache.Get now k = none)
    (hget : s.getParameter later k true ParameterTypeSecureString ttl
      = (.returned (v, some e), s')) :
    s.GetExpiringSecureString now later k ttl
      = (.returned ("", some (.wrapf e ("Attempting to get parameter: " ++ k))), s') := by
  unfold ssmCacheImpl.GetExpiringSecureString
  rw [hmiss]
  simp only [hget]

/-- C7 (counterexample): after `GetExpiringStringList "k"` has cached the raw value of a
remote `StringList` parameter, `GetExpiringString "k"` expects `String`, the remote
still declares `StringList`, and the call returns the cached value `a,b` with a
nil error: no type-mismatch error arises on a cache hit. -/
theorem type_mismatch_hidden_by_hit :
    ((NewClientWithSession (singleParameterStore "k" "StringList" (some "a,b"))
        3600).GetExpiringStringList 0 0 "k" 60).2.ssmSvc.parameters "k" false
      = .ok { Parameter := some { Name := some "k", Type_ := some "StringList",
                                  Value := some "a,b" } } ∧
    "StringList" ≠ ParameterTypeString ∧
    (((NewClientWithSession (singleParameterStore "k" "StringList" (some "a,b"))
        3600).GetExpiringStringList 0 0 "k" 60).2.GetExpiringString 1 1 "k" 60).1
      = .returned ("a,b", none) := by
  exact ⟨rfl, by decide, rfl⟩

/-- C7 (type mismatch, on a miss): with no unexpired entry under `k`, when the remote
declares `k` with type `X`, each of `GetExpiringString`, `GetExpiringStringList` and
`GetExpiringSecureString` whose expected type differs from `X` returns its zero
result and the error `Parameter k is type X, not type Y` wrapped in
`Attempting to get parameter: k`, after one remote request, and leaves the cache
as it was. -/
theorem type_mismatch_on_miss (s : ssmCacheImpl) (now later : Int) (k : String) (ttl : Int)
    (X : String) (pPlain pDecrypted : Parameter)
    (hmiss : s.cache.Get now k = none)
    (hplain : s.ssmSvc.parameters k false = .ok { Parameter := some pPlain })
    (hdecrypted : s.ssmSvc.parameters k true = .ok { Parameter := some pDecrypted })
    (htypePlain : pPlain.Type_ = some X) (htypeDecrypted : pDecrypted.Type_ = some X) :
    (X ≠ "String" →
      s.GetExpiringString now later k ttl
        = (.returned ("", some (.wrapf
              (.errorf ("Parameter " ++ k ++ " is type " ++ X ++ ", not type " ++ ParameterTypeString))
              ("Attempting to get parameter: " ++ k))),
            { s with ssmSvc := s.ssmSvc.record (.GetParameter k false) })) ∧
    (X ≠ "StringList" →
      s.GetExpiringStringList now later k ttl
        = (.returned (none, some (.wrapf
              (.errorf ("Parameter " ++ k ++ " is type " ++ X ++ ", not type " ++ ParameterTypeStringList))
              ("Attempting to get parameter: " ++ k))),
            { s with ssmSvc := s.ssmSvc.record (.GetParameter k false) })) ∧
    (X ≠ "SecureString" →
      s.GetExpiringSecureString now later k ttl
        = (.returned ("", some (.wrapf
              (.errorf ("Parameter " ++ k ++ " is type " ++ X ++ ", not type " ++ ParameterTypeSecureString))
              ("Attempting to get parameter: " ++ k))),
            { s with ssmSvc := s.ssmSvc.record (.GetParameter k true) })) := by
  exact ⟨fun hne => GetExpiringString_miss_error hmiss
      (getParameter_mismatch hplain htypePlain hne later ttl),
    fun hne => GetExpiringStringList_miss_error hmiss
      (getParameter_mismatch hplain htypePlain hne later ttl),
    fun hne => GetExpiringSecureString_miss_error hmiss
      (getParameter_mismatch hdecrypted htypeDecrypted hne later ttl)⟩


/-- The scalar accessor on a remote `StringList` parameter, cache empty. -/
theorem type_mismatch_on_miss_witness :
    (NewClientWithSession (singleParameterStore "k" "StringList" (some "a,b"))
        3600).cache.Get 0 "k" = none ∧
    (NewClientWithSession (singleParameterStore "k" "StringList" (some "a,b"))
        3600).GetExpiringString 0 0 "k" 60
      = (.returned ("", some (.wrapf
            (.errorf ("Parameter " ++ "k" ++ " is type " ++ "StringList" ++ ", not type "
              ++ ParameterTypeString))
            ("Attempting to get parameter: " ++ "k"))),
          { NewClientWithSession (singleParameterStore "k" "StringList" (some "a,b")) 3600 with
            ssmSvc := (singleParameterStore "k" "StringList" (some "a,b")).record (.GetParameter "k" false) }) :=
  ⟨rfl, (type_mismatch_on_miss
    (NewClientWithSession (singleParameterStore "k" "StringList" (some "a,b")) 3600)
    0 0 "k" 60 "StringList"
    { Name := some "k", Type_ := some "StringList", Value := some "a,b" }
    { Name := some "k", Type_ := some "StringList", Value := some "a,b" }
    rfl (by simp [NewClientWithSession, singleParameterStore])
    (by simp [NewClientWithSession, singleParameterStore]) rfl rfl).1 (by decide)⟩

theorem GetExpiringParameterGroup_paging_error {s : ssmCacheImpl} {now : Int} {g p : String}
    {pages : List GetParametersByPathOutput} {e : GoError}
    (hmiss : s.cache.Get now g = none)
    (hpages : s.ssmSvc.byPath p true = (pages, some e))
    (hnames : ∀ page ∈ pages, ∀ x ∈ page.Parameters, ∃ q, x = some q ∧ q.Name.isSome)
    (later ttl : Int) :
    s.GetExpiringParameterGroup now later g p ttl
      = (.returned (none, some (.wrapf e
            ("Failed to page through all parameters in SSM tree: " ++ p))),
          { s with ssmSvc := s.ssmSvc.record (.GetParametersByPath p true) }) := by
  obtain ⟨M, hM, -⟩ := eachPage_returned pages (fun _ => none) hnames
  rw [GetExpiringParameterGroup_miss hmiss, hpages]
  simp only [hM]

/-- C8 (counterexample): the listing of `/app/` of `brokenIncompleteStore` delivers one
page and then reports an error; the cache holds nothing under `appcfg`; yet
`GetExpiringParameterGroup` and `GetParameterGroup` return no error: they panic
on the nameless parameter of the delivered page. -/
theorem group_fetch_aborts_before_paging_error :
    (NewClientWithSession brokenIncompleteStore 3600).cache.Get 0 "appcfg" = none ∧
    brokenIncompleteStore.byPath "/app/" true
      = ([{ Parameters := [some { Name := none, Type_ := some "String", Value := some "1" }] }],
          some (.sdk "ThrottlingException")) ∧
    (NewClientWithSession brokenIncompleteStore 3600).GetExpiringParameterGroup 0 0 "appcfg"
        "/app/" 60
      = (.panicked nilDereference,
          { NewClientWithSession brokenIncompleteStore 3600 with
            ssmSvc := brokenIncompleteStore.record (.GetParametersByPath "/app/" true) }) ∧
    (NewClientWithSession brokenIncompleteStore 3600).GetParameterGroup 0 0 "appcfg" "/app/"
      = (.panicked nilDereference,
          { NewClientWithSession brokenIncompleteStore 3600 with
            ssmSvc := brokenIncompleteStore.record (.GetParametersByPath "/app/" true) }) :=
  ⟨rfl, rfl, rfl, rfl⟩

/-- C8 (as amended, group atomicity): with no unexpired entry under `g`, when the
enumeration of `p` delivers `pages`, every element listed in them being a
parameter (not nil) that has a name, and then reports the error `e`,
`GetExpiringParameterGroup g p ttl` and `GetParameterGroup g p` return the nil
mapping and `e` wrapped in `Failed to page through all parameters in SSM tree: p`,
and the cache is exactly the one before the call. -/
theorem group_atomicity (s : ssmCacheImpl) (now later : Int) (g p : String) (ttl : Int)
    (pages : List GetParametersByPathOutput) (e : GoError)
    (hmiss : s.cache.Get now g = none)
    (hpages : s.ssmSvc.byPath p true = (pages, some e))
    (hnames : ∀ page ∈ pages, ∀ x ∈ page.Parameters, ∃ q, x = some q ∧ q.Name.isSome) :
    s.GetExpiringParameterGroup now later g p ttl
      = (.returned (none, some (.wrapf e
            ("Failed to page through all parameters in SSM tree: " ++ p))),
          { s with ssmSvc := s.ssmSvc.record (.GetParametersByPath p true) }) ∧
    s.GetParameterGroup now later g p
      = (.returned (none, some (.wrapf e
            ("Failed to page through all parameters in SSM tree: " ++ p))),
          { s with ssmSvc := s.ssmSvc.record (.GetParametersByPath p true) }) ∧
    (s.GetExpiringParameterGroup now later g p ttl).2.cache = s.cache ∧
    (s.GetParameterGroup now later g p).2.cache = s.cache := by
  have h1 := GetExpiringParameterGroup_paging_error hmiss hpages hnames later ttl
  have h2 := GetExpiringParameterGroup_paging_error hmiss hpages hnames later DefaultExpiration
  refine ⟨h1, h2, ?_, ?_⟩
  · rw [h1]
  · rw [ssmCacheImpl.GetParameterGroup, h2]

/-- A listing that fails after its first page leaves the cache empty. -/
theorem group_atomicity_witness :
    (NewClientWithSession brokenPageStore 3600).cache.Get 0 "appcfg" = none ∧
    brokenPageStore.byPath "/app/" true
      = ([{ Parameters :=
              [some { Name := some "/app/a", Type_ := some "String", Value := some "1" }] }],
          some (.sdk "ThrottlingException")) ∧
    (NewClientWithSession brokenPageStore 3600).GetParameterGroup 0 0 "appcfg" "/app/"
      = (.returned (none, some (.wrapf (.sdk "ThrottlingException")
            ("Failed to page through all parameters in SSM tree: " ++ "/app/"))),
          { NewClientWithSession brokenPageStore 3600 with
            ssmSvc := brokenPageStore.record (.GetParametersByPath "/app/" true) }) ∧
    ((NewClientWithSession brokenPageStore 3600).GetParameterGroup 0 0 "appcfg" "/app/").2.cache
      = (NewClientWithSession brokenPageStore 3600).cache :=
  have h := group_atomicity (NewClientWithSession brokenPageStore 3600) 0 0 "appcfg" "/app/" 60
    [{ Parameters :=
        [some { Name := some "/app/a", Type_ := some "String", Value := some "1" }] }]
    (.sdk "ThrottlingException") rfl rfl (by simp)
  ⟨rfl, rfl, h.2.1, h.2.2.2⟩

/-- C9 (remote failures are never cached): with no unexpired entry under `name`,
when the remote single-parameter request fails, `GetExpiringString`,
`GetExpiringStringList` and `GetExpiringSecureString` each return the zero result
(the empty string, the nil list) and the remote error wrapped in
`Attempting to get parameter: name`, and leave the cache exactly as it was. -/
theorem remote_failure_not_cached (s : ssmCacheImpl) (now later : Int) (name : String)
    (ttl : Int) (ePlain eDecrypted : GoError)
    (hmiss : s.cache.Get now name = none)
    (hplain : s.ssmSvc.parameters name false = .error ePlain)
    (hdecrypted : s.ssmSvc.parameters name true = .error eDecrypted) :
    s.GetExpiringString now later name ttl
      = (.returned ("", some (.wrapf ePlain ("Attempting to get parameter: " ++ name))),
          { s with ssmSvc := s.ssmSvc.record (.GetParameter name false) }) ∧
    s.GetExpiringStringList now later name ttl
      = (.returned (none, some (.wrapf ePlain ("Attempting to get parameter: " ++ name))),
          { s with ssmSvc := s.ssmSvc.record (.GetParameter name false) }) ∧
    s.GetExpiringSecureString now later name ttl
      = (.returned ("", some (.wrapf eDecrypted ("Attempting to get parameter: " ++ name))),
          { s with ssmSvc := s.ssmSvc.record (.GetParameter name true) }) ∧
    (s.GetExpiringString now later name ttl).2.cache = s.cache ∧
    (s.GetExpiringStringList now later name ttl).2.cache = s.cache ∧
    (s.GetExpiringSecureString now later name ttl).2.cache = s.cache := by
  have h1 := GetExpiringString_miss_error hmiss
    (getParameter_error hplain later ParameterTypeString ttl)
  have h2 := GetExpiringStringList_miss_error hmiss
    (getParameter_error hplain later ParameterTypeStringList ttl)
  have h3 := GetExpiringSecureString_miss_error hmiss
    (getParameter_error hdecrypted later ParameterTypeSecureString ttl)
  exact ⟨h1, h2, h3, by rw [h1], by rw [h2], by rw [h3]⟩

/-- The scalar accessor against an unreachable store. -/
theorem remote_failure_not_cached_witness :
    (NewClientWithSession unreachableStore 3600).cache.Get 0 "k" = none ∧
    (NewClientWithSession unreachableStore 3600).GetExpiringString 0 0 "k" 60
      = (.returned ("", some (.wrapf (.sdk "RequestError")
            ("Attempting to get parameter: " ++ "k"))),
          { NewClientWithSession unreachableStore 3600 with
            ssmSvc := (unreachableStore).record (.GetParameter "k" false) }) :=
  ⟨rfl, (remote_failure_not_cached (NewClientWithSession unreachableStore 3600) 0 0 "k" 60
    (.sdk "RequestError") (.sdk "RequestError") rfl rfl rfl).1⟩

/-! ## Entries read through another accessor -/

theorem GetExpiringParameterGroup_entry {s s1 : ssmCacheImpl} {now later : Int} {g p : String}
    {ttl : Int} {M : StringMap}
    (h : s.GetExpiringParameterGroup now later g p ttl = (.returned (some M, none), s1)) :
    ∃ item, s1.cache.items g = some item ∧
      ((s.cache.Get now g = none ∧ item.Object = .mapStringInterface M) ∨
        item.Object = .ParameterGroup M) := by
  cases hget : s.cache.Get now g with
  | some value =>
    unfold ssmCacheImpl.GetExpiringParameterGroup at h
    rw [hget] at h
    cases value with
    | ParameterGroup m =>
      simp only [Prod.mk.injEq, Outcome.returned.injEq, Option.some.injEq, and_true] at h
      obtain ⟨rfl, rfl⟩ := h
      obtain ⟨item, hitem, hobj⟩ := Cache.Get_of_items hget
      exact ⟨item, hitem, Or.inr hobj⟩
    | string str => simp at h
    | mapStringInterface m => simp at h
  | none =>
    rw [GetExpiringParameterGroup_miss hget] at h
    split at h
    · simp at h
    · split at h
      · simp at h
      · simp only [Prod.mk.injEq, Outcome.returned.injEq, Option.some.injEq, and_true] at h
        obtain ⟨rfl, rfl⟩ := h
        exact ⟨_, Cache.Set_items_self _ _ _ _ _, Or.inl ⟨rfl, rfl⟩⟩

theorem GetExpiringString_hit_not_string {s : ssmCacheImpl} {now : Int} {k : String}
    {v : Value} (h : s.cache.Get now k = some v) (hv : ∀ str, v ≠ .string str)
    (later ttl : Int) :
    s.GetExpiringString now later k ttl
      = (.returned ("", some (.errorf ("Failed to type assert cached param: " ++ k))), s) := by
  unfold ssmCacheImpl.GetExpiringString
  rw [h]
  cases v with
  | string str => exact absurd rfl (hv str)
  | mapStringInterface m => rfl
  | ParameterGroup m => rfl

theorem GetExpiringSecureString_hit_not_string {s : ssmCacheImpl} {now : Int} {k : String}
    {v : Value} (h : s.cache.Get now k = some v) (hv : ∀ str, v ≠ .string str)
    (later ttl : Int) :
    s.GetExpiringSecureString now later k ttl
      = (.returned ("", some (.errorf ("Failed to type assert cached param: " ++ k))), s) := by
  unfold ssmCacheImpl.GetExpiringSecureString
  rw [h]
  cases v with
  | string str => exact absurd rfl (hv str)
  | mapStringInterface m => rfl
  | ParameterGroup m => rfl

theorem GetExpiringStringList_hit_not_string {s : ssmCacheImpl} {now : Int} {k : String}
    {v : Value} (h : s.cache.Get now k = some v) (hv : ∀ str, v ≠ .string str)
    (later ttl : Int) :
    s.GetExpiringStringList now later k ttl
      = (.returned (none, some (.errorf ("Failed to type assert cached param: " ++ k))), s) := by
  unfold ssmCacheImpl.GetExpiringStringList
  rw [h]
  cases v with
  | string str => exact absurd rfl (hv str)
  | mapStringInterface m => rfl
  | ParameterGroup m => rfl

theorem GetExpiringParameterGroup_hit_not_group {s : ssmCacheImpl} {now : Int} {k : String}
    {v : Value} (h : s.cache.Get now k = some v) (hv : ∀ m, v ≠ .ParameterGroup m)
    (later : Int) (p : String) (ttl : Int) :
    s.GetExpiringParameterGroup now later k p ttl
      = (.returned (none, some (.errorf
          ("Failed to type assert cached ParameterGroup type: " ++ k))), s) := by
  unfold ssmCacheImpl.GetExpiringParameterGroup
  rw [h]
  cases v with
  | string str => rfl
  | mapStringInterface m => rfl
  | ParameterGroup m => exact absurd rfl (hv m)

/-- C10 (cross-accessor isolation): if `GetExpiringParameterGroup g p ttl` succeeded,
then while the entry under `g` is unexpired, `GetString`, `GetExpiringString`,
`GetExpiringSecureString` and `GetExpiringStringList` on `g` each return the zero
result and the error `Failed to type assert cached param: g`, whatever the remote
store holds, leaving the whole state (cache and request log) as it was;
conversely, on a key holding an unexpired scalar string,
`GetExpiringParameterGroup` returns the nil mapping and the error
`Failed to type assert cached ParameterGroup type: key`, again leaving the state
(request log included) as it was. -/
theorem cross_accessor_isolation (s s1 : ssmCacheImpl) (now later : Int) (g p : String)
    (ttl : Int) (M : StringMap)
    (hgroup : s.GetExpiringParameterGroup now later g p ttl = (.returned (some M, none), s1))
    (now' later' : Int) (hfresh : (s1.cache.Get now' g).isSome)
    (s2 : ssmCacheImpl) (key v : String) (hscalar : s2.cache.Get now' key = some (.string v))
    (svc' : SSM) (p' : String) (ttl' : Int) :
    ({ s1 with ssmSvc := svc' }).GetString now' later' g
      = (.returned ("", some (.errorf ("Failed to type assert cached param: " ++ g))),
          { s1 with ssmSvc := svc' }) ∧
    ({ s1 with ssmSvc := svc' }).GetExpiringString now' later' g ttl'
      = (.returned ("", some (.errorf ("Failed to type assert cached param: " ++ g))),
          { s1 with ssmSvc := svc' }) ∧
    ({ s1 with ssmSvc := svc' }).GetExpiringSecureString now' later' g ttl'
      = (.returned ("", some (.errorf ("Failed to type assert cached param: " ++ g))),
          { s1 with ssmSvc := svc' }) ∧
    ({ s1 with ssmSvc := svc' }).GetExpiringStringList now' later' g ttl'
      = (.returned (none, some (.errorf ("Failed to type assert cached param: " ++ g))),
          { s1 with ssmSvc := svc' }) ∧
    s2.GetExpiringParameterGroup now' later' key p' ttl'
      = (.returned (none, some (.errorf
          ("Failed to type assert cached ParameterGroup type: " ++ key))), s2) := by
  obtain ⟨item, hitem, hobj⟩ := GetExpiringParameterGroup_entry hgroup
  have hget : ({ s1 with ssmSvc := svc' } : ssmCacheImpl).cache.Get now' g
      = some item.Object := Cache.Get_eq_of_isSome hitem hfresh
  have hv : ∀ str, item.Object ≠ .string str := by
    intro str hstr
    rcases hobj with ⟨-, h⟩ | h <;> rw [h] at hstr <;> cases hstr
  exact ⟨GetExpiringString_hit_not_string hget hv _ _,
    GetExpiringString_hit_not_string hget hv _ _,
    GetExpiringSecureString_hit_not_string hget hv _ _,
    GetExpiringStringList_hit_not_string hget hv _ _,
    GetExpiringParameterGroup_hit_not_group hscalar (fun m h => by cases h) _ _ _⟩

/-- A cached group read as a scalar, and a cached scalar read as a group. -/
theorem cross_accessor_isolation_witness :
    (((NewClientWithSession twoPageStore 3600).GetExpiringParameterGroup 0 0 "appcfg" "/app/"
        60).2.cache.Get 1 "appcfg").isSome ∧
    ((NewClientWithSession (singleParameterStore "k" "String" (some "v"))
        3600).GetExpiringString 0 0 "k" 60).2.cache.Get 1 "k" = some (.string "v") ∧
    ({ ((NewClientWithSession twoPageStore 3600).GetExpiringParameterGroup 0 0 "appcfg" "/app/"
        60).2 with ssmSvc := unreachableStore }).GetString 1 1 "appcfg"
      = (.returned ("", some (.errorf ("Failed to type assert cached param: " ++ "appcfg"))),
          { ((NewClientWithSession twoPageStore 3600).GetExpiringParameterGroup 0 0 "appcfg"
              "/app/" 60).2 with ssmSvc := unreachableStore }) ∧
    ((NewClientWithSession (singleParameterStore "k" "String" (some "v"))
        3600).GetExpiringString 0 0 "k" 60).2.GetExpiringParameterGroup 1 1 "k" "/app/" 60
      = (.returned (none, some (.errorf
          ("Failed to type assert cached ParameterGroup type: " ++ "k"))),
          ((NewClientWithSession (singleParameterStore "k" "String" (some "v"))
            3600).GetExpiringString 0 0 "k" 60).2) :=
  have h := cross_accessor_isolation (NewClientWithSession twoPageStore 3600)
    ((NewClientWithSession twoPageStore 3600).GetExpiringParameterGroup 0 0 "appcfg" "/app/"
        60).2 0 0 "appcfg" "/app/" 60
    (fun k => if k = "/app/b" then some "2" else if k = "/app/a" then some "1" else none)
    rfl 1 1 rfl
    ((NewClientWithSession (singleParameterStore "k" "String" (some "v"))
        3600).GetExpiringString 0 0 "k" 60).2 "k" "v" rfl unreachableStore "/app/" 60
  ⟨rfl, rfl, h.1, h.2.2.2.2⟩

theorem GetExpiringParameterGroup_hit_after_miss {s s1 : ssmCacheImpl} {now later : Int}
    {g p : String} {ttl : Int} {M : StringMap}
    (hmiss : s.cache.Get now g = none)
    (hfirst : s.GetExpiringParameterGroup now later g p ttl = (.returned (some M, none), s1))
    {now' : Int} (hfresh : (s1.cache.Get now' g).isSome) (later' : Int) (p' : String)
    (ttl' : Int) :
    s1.GetExpiringParameterGroup now' later' g p' ttl'
      = (.returned (none, some (.errorf
          ("Failed to type assert cached ParameterGroup type: " ++ g))), s1) := by
  rw [GetExpiringParameterGroup_miss hmiss] at hfirst
  split at hfirst
  · simp at hfirst
  · split at hfirst
    · simp at hfirst
    · simp only [Prod.mk.injEq, Outcome.returned.injEq, Option.some.injEq, and_true] at hfirst
      obtain ⟨rfl, rfl⟩ := hfirst
      have hget := Cache.Get_eq_of_isSome (Cache.Set_items_self _ _ _ _ _) hfresh
      exact GetExpiringParameterGroup_hit_not_group hget (fun m h => by cases h) _ _ _

/-- C3 (evaluation at the failing input): on a fresh client whose remote subtree
`/app/` is delivered in two pages, `GetParameterGroup "appcfg" "/app/"` succeeds
and stores its mapping under `appcfg` as a `map[string]interface{}`; the entry is
unexpired one tick later, and yet the next `GetParameterGroup` and
`GetExpiringParameterGroup` for `appcfg` fail with the type-assertion error
instead of returning the mapping. -/
theorem group_hit_after_miss_fails :
    (NewClientWithSession twoPageStore 3600).GetParameterGroup 0 0 "appcfg" "/app/"
      = (.returned (some (fun k =>
            if k = "/app/b" then some "2" else if k = "/app/a" then some "1" else none), none),
          { ssmSvc := twoPageStore.record (.GetParametersByPath "/app/" true)
            cache := (Cache.New 3600).Set 0 "appcfg" (.mapStringInterface (fun k =>
              if k = "/app/b" then some "2" else if k = "/app/a" then some "1" else none))
              DefaultExpiration }) ∧
    (((NewClientWithSession twoPageStore 3600).GetParameterGroup 0 0 "appcfg"
        "/app/").2.cache.Get 1 "appcfg").isSome ∧
    ((NewClientWithSession twoPageStore 3600).GetParameterGroup 0 0 "appcfg"
        "/app/").2.GetParameterGroup 1 1 "appcfg" "/app/"
      = (.returned (none, some (.errorf
          "Failed to type assert cached ParameterGroup type: appcfg")),
          ((NewClientWithSession twoPageStore 3600).GetParameterGroup 0 0 "appcfg" "/app/").2) ∧
    ((NewClientWithSession twoPageStore 3600).GetParameterGroup 0 0 "appcfg"
        "/app/").2.GetExpiringParameterGroup 1 1 "appcfg" "/app/" 60
      = (.returned (none, some (.errorf
          "Failed to type assert cached ParameterGroup type: appcfg")),
          ((NewClientWithSession twoPageStore 3600).GetParameterGroup 0 0 "appcfg" "/app/").2) :=
  ⟨rfl, rfl, rfl, rfl⟩

/-- C5 (evaluation at the failing input): `GetStringList` returns the nil list and the
nil error in every state, without touching the cache or the remote store; on a
fresh client whose remote holds `k` as the `StringList` value `a,b,c`,
`GetExpiringStringList k DefaultExpiration` instead returns `[a, b, c]`, makes one
remote request and caches the raw value under `k`. -/
theorem GetStringList_returns_nothing :
    (∀ (s : ssmCacheImpl) (now later : Int) (name : String),
      s.GetStringList now later name = (.returned (none, none), s)) ∧
    (NewClientWithSession (singleParameterStore "k" "StringList" (some "a,b,c"))
        3600).GetStringList 0 0 "k"
      = (.returned (none, none),
          NewClientWithSession (singleParameterStore "k" "StringList" (some "a,b,c")) 3600) ∧
    (NewClientWithSession (singleParameterStore "k" "StringList" (some "a,b,c"))
        3600).GetExpiringStringList 0 0 "k" DefaultExpiration
      = (.returned (some ["a", "b", "c"], none),
          { ssmSvc := (singleParameterStore "k" "StringList" (some "a,b,c")).record
              (.GetParameter "k" false)
            cache := (Cache.New 3600).Set 0 "k" (.string "a,b,c") DefaultExpiration }) ∧
    ((NewClientWithSession (singleParameterStore "k" "StringList" (some "a,b,c"))
        3600).GetStringList 0 0 "k").2.cache.Get 0 "k" = none ∧
    ((NewClientWithSession (singleParameterStore "k" "StringList" (some "a,b,c"))
        3600).GetExpiringStringList 0 0 "k" DefaultExpiration).2.cache.Get 0 "k"
      = some (.string "a,b,c") :=
  ⟨fun _ _ _ _ => rfl, rfl, rfl, rfl, rfl⟩

/-- A hit on `/app/db-host` at the last unexpired instant, the store unreachable. -/
theorem cache_hit_fidelity_scalar_witness :
    (NewClientWithSession (singleParameterStore "/app/db-host" "String" (some "db.internal"))
        3600).GetExpiringString 0 0 "/app/db-host" 60
      = (.returned ("db.internal", none),
          { ssmSvc := (singleParameterStore "/app/db-host" "String"
              (some "db.internal")).record (.GetParameter "/app/db-host" false)
            cache := (Cache.New 3600).Set 0 "/app/db-host" (.string "db.internal") 60 }) ∧
    (((Cache.New 3600).Set 0 "/app/db-host" (.string "db.internal") 60).Get 60
        "/app/db-host").isSome ∧
    ({ ssmSvc := unreachableStore
       cache := (Cache.New 3600).Set 0 "/app/db-host" (.string "db.internal") 60
       : ssmCacheImpl }).GetString 60 60 "/app/db-host"
      = (.returned ("db.internal", none),
          { ssmSvc := unreachableStore
            cache := (Cache.New 3600).Set 0 "/app/db-host" (.string "db.internal") 60 }) :=
  ⟨rfl, rfl, (cache_hit_fidelity_scalar
    (NewClientWithSession (singleParameterStore "/app/db-host" "String" (some "db.internal"))
      3600)
    { ssmSvc := (singleParameterStore "/app/db-host" "String"
        (some "db.internal")).record (.GetParameter "/app/db-host" false)
      cache := (Cache.New 3600).Set 0 "/app/db-host" (.string "db.internal") 60 }
    0 0 "/app/db-host" 60 "db.internal" rfl 60 60 rfl unreachableStore 5).2⟩

/-- The two-page `/app/` scenario cached under `appcfg`. -/
theorem group_aggregation_on_miss_witness :
    (NewClientWithSession twoPageStore 3600).cache.Get 0 "appcfg" = none ∧
    ∃ M : StringMap,
      (NewClientWithSession twoPageStore 3600).GetExpiringParameterGroup 0 0 "appcfg" "/app/" 60
        = (.returned (some M, none),
            { ssmSvc := twoPageStore.record (.GetParametersByPath "/app/" true)
              cache := (Cache.New 3600).Set 0 "appcfg" (.mapStringInterface M) 60 }) ∧
      M "/app/a" = some "1" ∧ M "/app/b" = some "2" ∧
      ∀ n, (M n).isSome ↔ n = "/app/a" ∨ n = "/app/b" := by
  obtain ⟨M, h1, h2, h3, -, -⟩ := group_aggregation_on_miss
    (NewClientWithSession twoPageStore 3600) 0 0 "appcfg" "/app/" 60
    [{ Parameters :=
        [some { Name := some "/app/a", Type_ := some "String", Value := some "1" }] },
     { Parameters :=
        [some { Name := some "/app/b", Type_ := some "String", Value := some "2" }] }]
    rfl rfl (by simp)
  refine ⟨rfl, M, h1, ?_, ?_, fun n => ?_⟩
  · rw [h3]; decide
  · rw [h3]; decide
  · rw [h2]
    simp [eq_comm]

/-! ## Purge and the frame of every operation -/

theorem Cache.Delete_items_self (c : Cache) (k : String) : (c.Delete k).items k = none := by
  simp [Cache.Delete]

theorem Cache.Delete_items_of_ne (c : Cache) (k : String) {k' : String} (h : k' ≠ k) :
    (c.Delete k).items k' = c.items k' := by
  simp [Cache.Delete, h]

theorem Cache.Delete_of_absent {c : Cache} {k : String} (h : c.items k = none) :
    c.Delete k = c := by
  cases c with
  | mk de items =>
    simp only [Cache.Delete, Cache.mk.injEq, true_and]
    funext k'
    by_cases hk : k' = k
    · subst hk
      simpa using h.symm
    · simp [hk]

theorem Cache.Get_of_items_none {c : Cache} {k : String} (h : c.items k = none) (now : Int) :
    c.Get now k = none := by
  simp [Cache.Get, h]

theorem getParameter_cache (s : ssmCacheImpl) (later : Int) (k : String) (enc : Bool)
    (ty : String) (ttl : Int) :
    (s.getParameter later k enc ty ttl).2.ssmSvc = s.ssmSvc.record (.GetParameter k enc) ∧
    ((s.getParameter later k enc ty ttl).2.cache = s.cache ∨
      ∃ v, (s.getParameter later k enc ty ttl).2.cache = s.cache.Set later k (.string v) ttl) := by
  unfold ssmCacheImpl.getParameter SSM.GetParameter
  simp only
  split
  · exact ⟨rfl, Or.inl rfl⟩
  · split
    · exact ⟨rfl, Or.inl rfl⟩
    · split
      · exact ⟨rfl, Or.inl rfl⟩
      · split
        · exact ⟨rfl, Or.inl rfl⟩
        · exact ⟨rfl, Or.inr ⟨_, rfl⟩⟩

theorem GetExpiringStringWith_cache (enc : Bool) (ty : String) (s : ssmCacheImpl)
    (now later : Int) (k : String) (ttl : Int) :
    (s.GetExpiringStringWith enc ty now later k ttl).2.cache = s.cache ∨
      ∃ v, (s.GetExpiringStringWith enc ty now later k ttl).2.cache
        = s.cache.Set later k (.string v) ttl := by
  have h := (getParameter_cache s later k enc ty ttl).2
  unfold ssmCacheImpl.GetExpiringStringWith
  split
  · split <;> exact Or.inl rfl
  · split
    · rename_i heq
      rw [heq] at h
      exact h
    · rename_i heq
      rw [heq] at h
      split <;> exact h

theorem GetExpiringString_eq_with (s : ssmCacheImpl) (now later : Int) (k : String)
    (ttl : Int) :
    s.GetExpiringString now later k ttl
      = s.GetExpiringStringWith false ParameterTypeString now later k ttl := rfl

theorem GetExpiringSecureString_eq_with (s : ssmCacheImpl) (now later : Int) (k : String)
    (ttl : Int) :
    s.GetExpiringSecureString now later k ttl
      = s.GetExpiringStringWith true ParameterTypeSecureString now later k ttl := rfl

theorem GetExpiringStringList_cache (s : ssmCacheImpl) (now later : Int) (k : String)
    (ttl : Int) :
    (s.GetExpiringStringList now later k ttl).2.cache = s.cache ∨
      ∃ v, (s.GetExpiringStringList now later k ttl).2.cache
        = s.cache.Set later k (.string v) ttl := by
  have h := (getParameter_cache s later k false ParameterTypeStringList ttl).2
  unfold ssmCacheImpl.GetExpiringStringList
  split
  · split <;> exact Or.inl rfl
  · split
    · rename_i heq
      rw [heq] at h
      exact h
    · rename_i heq
      rw [heq] at h
      split <;> exact h

theorem GetExpiringParameterGroup_cache (s : ssmCacheImpl) (now later : Int) (g p : String)
    (ttl : Int) :
    (s.GetExpiringParameterGroup now later g p ttl).2.cache = s.cache ∨
      ∃ m, (s.GetExpiringParameterGroup now later g p ttl).2.cache
        = s.cache.Set later g (.mapStringInterface m) ttl := by
  cases hget : s.cache.Get now g with
  | some value =>
    unfold ssmCacheImpl.GetExpiringParameterGroup
    rw [hget]
    cases value <;> exact Or.inl rfl
  | none =>
    rw [GetExpiringParameterGroup_miss hget]
    split
    · exact Or.inl rfl
    · split
      · exact Or.inl rfl
      · exact Or.inr ⟨_, rfl⟩

theorem items_of_cache_cases {c c' : Cache} {later : Int} {k k' : String} {ttl : Int}
    (hne : k' ≠ k) (h : c' = c ∨ ∃ x, c' = c.Set later k x ttl) :
    c'.items k' = c.items k' := by
  rcases h with h | ⟨x, h⟩
  · rw [h]
  · rw [h, Cache.Set_items_of_ne _ _ _ _ _ hne]


/-- C16 (frame): a call to any accessor with name or group key `k`, or to `Purge k`,
leaves the item (value and expiry) under every other key `k'` as it was, whether
the call hits, misses, fails or panics; in particular a successful group fetch
under `k` leaves every other key that had no item without one, be it the path or
the name of a listed parameter. -/
theorem frame_other_keys (s : ssmCacheImpl) (now later : Int) (k k' p : String) (ttl : Int)
    (hne : k' ≠ k) :
    (s.GetString now later k).2.cache.items k' = s.cache.items k' ∧
    (s.GetExpiringString now later k ttl).2.cache.items k' = s.cache.items k' ∧
    (s.GetStringList now later k).2.cache.items k' = s.cache.items k' ∧
    (s.GetExpiringStringList now later k ttl).2.cache.items k' = s.cache.items k' ∧
    (s.GetSecureString now later k).2.cache.items k' = s.cache.items k' ∧
    (s.GetExpiringSecureString now later k ttl).2.cache.items k' = s.cache.items k' ∧
    (s.GetParameterGroup now later k p).2.cache.items k' = s.cache.items k' ∧
    (s.GetExpiringParameterGroup now later k p ttl).2.cache.items k' = s.cache.items k' ∧
    (s.Purge k).cache.items k' = s.cache.items k' ∧
    (∀ (M : StringMap) (s1 : ssmCacheImpl),
      s.GetExpiringParameterGroup now later k p ttl = (.returned (some M, none), s1) →
      s.cache.items k' = none → s1.cache.items k' = none) := by
  have hstr : ∀ (enc : Bool) (ty : String) (ttl : Int),
      (s.GetExpiringStringWith enc ty now later k ttl).2.cache.items k' = s.cache.items k' :=
    fun enc ty ttl => items_of_cache_cases hne
      ((GetExpiringStringWith_cache enc ty s now later k ttl).imp_right
        (fun ⟨v, h⟩ => ⟨.string v, h⟩))
  have hgrp : ∀ ttl : Int,
      (s.GetExpiringParameterGroup now later k p ttl).2.cache.items k' = s.cache.items k' :=
    fun ttl => items_of_cache_cases hne
      ((GetExpiringParameterGroup_cache s now later k p ttl).imp_right
        (fun ⟨m, h⟩ => ⟨.mapStringInterface m, h⟩))
  refine ⟨hstr _ _ _, hstr _ _ _, rfl, ?_, hstr _ _ _, hstr _ _ _, hgrp _, hgrp _,
    Cache.Delete_items_of_ne _ _ hne, fun M s1 hfirst hnone => ?_⟩
  · exact items_of_cache_cases hne
      ((GetExpiringStringList_cache s now later k ttl).imp_right
        (fun ⟨v, h⟩ => ⟨.string v, h⟩))
  · have h := hgrp ttl
    rw [hfirst] at h
    exact h.trans hnone

/-- The two-page group fetch under `appcfg` leaves the path and the listed names
without an entry. -/
theorem frame_other_keys_witness :
    ("/app/a" : String) ≠ "appcfg" ∧
    ((NewClientWithSession twoPageStore 3600).GetExpiringParameterGroup 0 0 "appcfg" "/app/"
        60).2.cache.items "/app/a"
      = (NewClientWithSession twoPageStore 3600).cache.items "/app/a" ∧
    (NewClientWithSession twoPageStore 3600).cache.items "/app/a" = none :=
  ⟨by decide,
    (frame_other_keys (NewClientWithSession twoPageStore 3600) 0 0 "appcfg" "/app/a" "/app/" 60
      (by decide)).2.2.2.2.2.2.2.1, rfl⟩

/-- C11 (purge): `Purge k` makes no remote request and returns the receiver with the
item under `k` removed, whatever its kind and expiry, every other item and the
default TTL being kept; with no item under `k` the state is unchanged, so purging
twice is purging once; the state after the purge does not depend on what was
stored under `k`; and after the purge every accessor called on `k` misses the
cache and sends a new request to the remote store. -/
theorem purge_removes_entry (s : ssmCacheImpl) (k : String) :
    (s.Purge k).ssmSvc = s.ssmSvc ∧
    (s.Purge k).cache.defaultExpiration = s.cache.defaultExpiration ∧
    (s.Purge k).cache.items k = none ∧
    (∀ k', k' ≠ k → (s.Purge k).cache.items k' = s.cache.items k') ∧
    (s.cache.items k = none → s.Purge k = s) ∧
    (s.Purge k).Purge k = s.Purge k ∧
    (∀ item : Option Item,
      ({ s with cache := { s.cache with
          items := fun k' => if k' = k then item else s.cache.items k' } }).Purge k
        = s.Purge k) ∧
    (∀ now, (s.Purge k).cache.Get now k = none) ∧
    (∀ now later ttl p,
      ((s.Purge k).GetExpiringString now later k ttl).2.ssmSvc
        = s.ssmSvc.record (.GetParameter k false) ∧
      ((s.Purge k).GetExpiringStringList now later k ttl).2.ssmSvc
        = s.ssmSvc.record (.GetParameter k false) ∧
      ((s.Purge k).GetExpiringSecureString now later k ttl).2.ssmSvc
        = s.ssmSvc.record (.GetParameter k true) ∧
      ((s.Purge k).GetExpiringParameterGroup now later k p ttl).2.ssmSvc
        = s.ssmSvc.record (.GetParametersByPath p true)) ∧
    (∀ (now later ttl : Int) (q : Parameter),
      s.ssmSvc.parameters k false = .ok { Parameter := some q } →
      q.Type_ = some "String" →
      ((s.Purge k).GetExpiringString now later k ttl).1
        = .returned (q.Value.getD "", none)) := by
  have hnone : (s.Purge k).cache.items k = none := Cache.Delete_items_self _ _
  have hget : ∀ now, (s.Purge k).cache.Get now k = none :=
    fun now => Cache.Get_of_items_none hnone now
  refine ⟨rfl, rfl, hnone, fun k' hk => Cache.Delete_items_of_ne _ _ hk, fun habs => ?_, ?_,
    fun item => ?_, hget, fun now later ttl p => ⟨?_, ?_, ?_, ?_⟩,
    fun now later ttl q hq hty => ?_⟩
  · cases s with
    | mk svc cache =>
      simp only [ssmCacheImpl.Purge, ssmCacheImpl.mk.injEq, true_and]
      exact Cache.Delete_of_absent habs
  · show ({ (s.Purge k) with cache := (s.Purge k).cache.Delete k } : ssmCacheImpl) = s.Purge k
    rw [Cache.Delete_of_absent hnone]
  · simp only [ssmCacheImpl.Purge, Cache.Delete, ssmCacheImpl.mk.injEq, Cache.mk.injEq, true_and]
    funext k'
    by_cases hk : k' = k <;> simp [hk]
  · have h := (getParameter_cache (s.Purge k) later k false ParameterTypeString ttl).1
    unfold ssmCacheImpl.GetExpiringString
    rw [hget now]
    simp only
    split
    · rename_i heq; rw [heq] at h; exact h
    · rename_i heq; rw [heq] at h; split <;> exact h
  · have h := (getParameter_cache (s.Purge k) later k false ParameterTypeStringList ttl).1
    unfold ssmCacheImpl.GetExpiringStringList
    rw [hget now]
    simp only
    split
    · rename_i heq; rw [heq] at h; exact h
    · rename_i heq; rw [heq] at h; split <;> exact h
  · have h := (getParameter_cache (s.Purge k) later k true ParameterTypeSecureString ttl).1
    unfold ssmCacheImpl.GetExpiringSecureString
    rw [hget now]
    simp only
    split
    · rename_i heq; rw [heq] at h; exact h
    · rename_i heq; rw [heq] at h; split <;> exact h
  · rw [GetExpiringParameterGroup_miss (hget now)]
    split
    · rfl
    · split <;> rfl
  · have hq' : (s.Purge k).ssmSvc.parameters k false = .ok { Parameter := some q } := hq
    rw [GetExpiringString_miss_ok (hget now) hq' hty]

/-- An entry `old` under `k` is purged; the next scalar lookup returns what the
remote store holds by then. -/
theorem purge_removes_entry_witness :
    ((NewClientWithSession (singleParameterStore "k" "String" (some "old"))
        3600).GetExpiringString 0 0 "k" 60).2.cache.Get 1 "k" = some (.string "old") ∧
    (((NewClientWithSession (singleParameterStore "k" "String" (some "old"))
        3600).GetExpiringString 0 0 "k" 60).2.Purge "k").cache.items "k" = none ∧
    ({ ((NewClientWithSession (singleParameterStore "k" "String" (some "old"))
          3600).GetExpiringString 0 0 "k" 60).2.Purge "k" with
        ssmSvc := singleParameterStore "k" "String" (some "new") }).GetExpiringString 1 1 "k" 60
      = (.returned ("new", none),
          { ssmSvc := (singleParameterStore "k" "String" (some "new")).record
              (.GetParameter "k" false)
            cache := ((((Cache.New 3600).Set 0 "k" (.string "old") 60).Delete "k").Set 1 "k"
              (.string "new") 60) }) :=
  ⟨rfl, (purge_removes_entry
    ((NewClientWithSession (singleParameterStore "k" "String" (some "old"))
        3600).GetExpiringString 0 0 "k" 60).2 "k").2.2.1, rfl⟩

/-! ## Entries of the single-parameter accessors -/

theorem GetExpiringStringWith_entry {enc : Bool} {ty : String} {s s1 : ssmCacheImpl}
    {now later : Int} {k : String} {ttl : Int} {V : String}
    (h : s.GetExpiringStringWith enc ty now later k ttl = (.returned (V, none), s1)) :
    ∃ item, s1.cache.items k = some item ∧ item.Object = .string V := by
  unfold ssmCacheImpl.GetExpiringStringWith at h
  split at h
  · rename_i value hget
    split at h
    · simp only [Prod.mk.injEq, Outcome.returned.injEq, and_true] at h
      obtain ⟨rfl, rfl⟩ := h
      exact Cache.Get_of_items hget
    · simp at h
  · split at h
    · simp at h
    · rename_i newValue newValueErr s' hgp
      split at h
      · simp at h
      · simp only [Prod.mk.injEq, Outcome.returned.injEq, and_true] at h
        obtain ⟨rfl, rfl⟩ := h
        rw [getParameter_returned hgp]
        exact ⟨_, Cache.Set_items_self _ _ _ _ _, rfl⟩

theorem GetExpiringStringList_hit {s : ssmCacheImpl} {now : Int} {k : String} {V : String}
    (h : s.cache.Get now k = some (.string V)) (later ttl : Int) :
    s.GetExpiringStringList now later k ttl
      = (.returned (some (Split V ','), none), s) := by
  simp [ssmCacheImpl.GetExpiringStringList, h]

theorem GetExpiringStringWith_hit_eq {s : ssmCacheImpl} {now : Int} {k : String} {v : Value}
    (h : s.cache.Get now k = some v) (enc enc' : Bool) (ty ty' : String) (later ttl : Int) :
    s.GetExpiringStringWith enc ty now later k ttl
      = s.GetExpiringStringWith enc' ty' now later k ttl := by
  simp only [ssmCacheImpl.GetExpiringStringWith, h]

theorem getParameter_no_parameter {s : ssmCacheImpl} {k : String} {enc : Bool}
    (hremote : s.ssmSvc.parameters k enc = .ok { Parameter := none }) (later : Int)
    (ty : String) (ttl : Int) :
    s.getParameter later k enc ty ttl
      = (.panicked nilDereference,
          { s with ssmSvc := s.ssmSvc.record (.GetParameter k enc) }) := by
  unfold ssmCacheImpl.getParameter SSM.GetParameter
  simp only [hremote]

theorem getParameter_no_type {s : ssmCacheImpl} {k : String} {enc : Bool} {p : Parameter}
    (hremote : s.ssmSvc.parameters k enc = .ok { Parameter := some p })
    (htype : p.Type_ = none) (later : Int) (ty : String) (ttl : Int) :
    s.getParameter later k enc ty ttl
      = (.panicked nilDereference,
          { s with ssmSvc := s.ssmSvc.record (.GetParameter k enc) }) := by
  unfold ssmCacheImpl.getParameter SSM.GetParameter
  simp only [hremote, htype]

/-- C12 (counterexample): `GetExpiringString "k"` caches the scalar `a,b`; while that
entry is unexpired, `GetExpiringStringList "k"` returns the list `[a, b]` with a nil
error and leaves the state as it was: the list accessor reads the scalar entry
instead of failing. -/
theorem list_access_reads_scalar_entry :
    (NewClientWithSession (singleParameterStore "k" "String" (some "a,b"))
        3600).GetExpiringString 0 0 "k" 60
      = (.returned ("a,b", none),
          { ssmSvc := (singleParameterStore "k" "String" (some "a,b")).record
              (.GetParameter "k" false)
            cache := (Cache.New 3600).Set 0 "k" (.string "a,b") 60 }) ∧
    ((NewClientWithSession (singleParameterStore "k" "String" (some "a,b"))
        3600).GetExpiringString 0 0 "k" 60).2.cache.Get 1 "k" = some (.string "a,b") ∧
    ((NewClientWithSession (singleParameterStore "k" "String" (some "a,b"))
        3600).GetExpiringString 0 0 "k" 60).2.GetExpiringStringList 1 1 "k" 60
      = (.returned (some ["a", "b"], none),
          ((NewClientWithSession (singleParameterStore "k" "String" (some "a,b"))
            3600).GetExpiringString 0 0 "k" 60).2) :=
  ⟨rfl, rfl, rfl⟩

/-- C12 (as amended): the type of an entry is the Go type of the stored value, a string
for the single-parameter accessors.  If `GetExpiringString k` or
`GetExpiringSecureString k` returned `(V, nil)`, then while the entry under `k` is
unexpired the group accessor on `k` fails with the type-assertion error, whereas
`GetExpiringStringList k` returns the comma-split of `V` with a nil error; both
leave the state (cache and request log) as it was, whatever the remote holds. -/
theorem scalar_entry_read_by_other_accessors (s s1 : ssmCacheImpl) (now later : Int)
    (k : String) (ttl : Int) (V : String)
    (hfirst : s.GetExpiringString now later k ttl = (.returned (V, none), s1) ∨
      s.GetExpiringSecureString now later k ttl = (.returned (V, none), s1))
    (now' later' : Int) (hfresh : (s1.cache.Get now' k).isSome)
    (svc' : SSM) (p' : String) (ttl' : Int) :
    ({ s1 with ssmSvc := svc' }).GetExpiringParameterGroup now' later' k p' ttl'
      = (.returned (none, some (.errorf
          ("Failed to type assert cached ParameterGroup type: " ++ k))),
          { s1 with ssmSvc := svc' }) ∧
    ({ s1 with ssmSvc := svc' }).GetExpiringStringList now' later' k ttl'
      = (.returned (some (Split V ','), none), { s1 with ssmSvc := svc' }) := by
  obtain ⟨item, hitem, hobj⟩ : ∃ item, s1.cache.items k = some item ∧
      item.Object = .string V := by
    rcases hfirst with h | h
    · exact GetExpiringStringWith_entry ((GetExpiringString_eq_with s now later k ttl) ▸ h)
    · exact GetExpiringStringWith_entry
        ((GetExpiringSecureString_eq_with s now later k ttl) ▸ h)
  have hget : ({ s1 with ssmSvc := svc' } : ssmCacheImpl).cache.Get now' k
      = some (.string V) := by
    show s1.cache.Get now' k = _
    rw [Cache.Get_eq_of_isSome hitem hfresh, hobj]
  exact ⟨GetExpiringParameterGroup_hit_not_group hget (fun m h => by cases h) _ _ _,
    GetExpiringStringList_hit hget _ _⟩

/-- A scalar `a,b` cached by the scalar accessor, read as a group and as a list. -/
theorem scalar_entry_read_by_other_accessors_witness :
    ((Cache.New 3600).Set 0 "k" (.string "a,b") 60).Get 1 "k" = some (.string "a,b") ∧
    ({ ssmSvc := unreachableStore
       cache := (Cache.New 3600).Set 0 "k" (.string "a,b") 60
       : ssmCacheImpl }).GetExpiringStringList 1 1 "k" 60
      = (.returned (some (Split "a,b" ','), none),
          { ssmSvc := unreachableStore
            cache := (Cache.New 3600).Set 0 "k" (.string "a,b") 60 }) :=
  ⟨rfl, (scalar_entry_read_by_other_accessors
    (NewClientWithSession (singleParameterStore "k" "String" (some "a,b")) 3600)
    { ssmSvc := (singleParameterStore "k" "String" (some "a,b")).record
        (.GetParameter "k" false)
      cache := (Cache.New 3600).Set 0 "k" (.string "a,b") 60 }
    0 0 "k" 60 "a,b" (Or.inl rfl) 1 1 rfl unreachableStore "/app/" 60).2⟩

/-- C13 (list entries are cached raw, and a hit agrees with the miss): if, with no
unexpired entry under `name` and the remote answering with a parameter of value
`v` (the empty string when absent), `GetExpiringStringList name ttl` returns the
list `L` with a nil error, then `L` is the comma-split of `v`, the item now under
`name` is the unsplit string `v` (not a list), and at any later clock reading at
which that entry is unexpired `GetExpiringStringList name ttl'` returns `L` again,
whatever the remote store holds, leaving the cache and the request log as they
were. -/
theorem list_entry_cached_raw (s s1 : ssmCacheImpl) (now later : Int) (name : String)
    (ttl : Int) (p : Parameter) (L : List String)
    (hmiss : s.cache.Get now name = none)
    (hremote : s.ssmSvc.parameters name false = .ok { Parameter := some p })
    (hfirst : s.GetExpiringStringList now later name ttl = (.returned (some L, none), s1)) :
    L = Split (p.Value.getD "") ',' ∧
    s1.cache = s.cache.Set later name (.string (p.Value.getD "")) ttl ∧
    (∃ e, s1.cache.items name = some { Object := .string (p.Value.getD ""), Expiration := e }) ∧
    (∀ (now' later' ttl' : Int) (svc' : SSM), (s1.cache.Get now' name).isSome →
      ({ s1 with ssmSvc := svc' }).GetExpiringStringList now' later' name ttl'
        = (.returned (some L, none), { s1 with ssmSvc := svc' })) := by
  have htype : p.Type_ = some ParameterTypeStringList := by
    cases hty : p.Type_ with
    | none =>
      have hpanic := getParameter_no_type hremote hty later ParameterTypeStringList ttl
      unfold ssmCacheImpl.GetExpiringStringList at hfirst
      rw [hmiss] at hfirst
      simp [hpanic] at hfirst
    | some t =>
      by_cases ht : t = ParameterTypeStringList
      · rw [ht]
      · have herr := GetExpiringStringList_miss_error hmiss
          (getParameter_mismatch hremote hty ht later ttl)
        rw [herr] at hfirst
        simp at hfirst
  rw [GetExpiringStringList_miss_ok hmiss hremote htype] at hfirst
  simp only [Prod.mk.injEq, Outcome.returned.injEq, Option.some.injEq, and_true] at hfirst
  obtain ⟨rfl, rfl⟩ := hfirst
  refine ⟨rfl, rfl, ⟨_, Cache.Set_items_self _ _ _ _ _⟩, fun now' later' ttl' svc' hfresh => ?_⟩
  have hget := Cache.Get_eq_of_isSome (Cache.Set_items_self _ _ _ _ _) hfresh
  exact GetExpiringStringList_hit hget _ _

/-- The list `a,b,c` fetched on a miss and read again from the cache. -/
theorem list_entry_cached_raw_witness :
    (NewClientWithSession (singleParameterStore "k" "StringList" (some "a,b,c"))
        3600).cache.Get 0 "k" = none ∧
    (NewClientWithSession (singleParameterStore "k" "StringList" (some "a,b,c"))
        3600).GetExpiringStringList 0 0 "k" 60
      = (.returned (some ["a", "b", "c"], none),
          { ssmSvc := (singleParameterStore "k" "StringList" (some "a,b,c")).record
              (.GetParameter "k" false)
            cache := (Cache.New 3600).Set 0 "k" (.string "a,b,c") 60 }) ∧
    ({ ssmSvc := unreachableStore
       cache := (Cache.New 3600).Set 0 "k" (.string "a,b,c") 60
       : ssmCacheImpl }).GetExpiringStringList 60 60 "k" 5
      = (.returned (some ["a", "b", "c"], none),
          { ssmSvc := unreachableStore
            cache := (Cache.New 3600).Set 0 "k" (.string "a,b,c") 60 }) :=
  ⟨rfl, rfl, (list_entry_cached_raw
    (NewClientWithSession (singleParameterStore "k" "StringList" (some "a,b,c")) 3600)
    { ssmSvc := (singleParameterStore "k" "StringList" (some "a,b,c")).record
        (.GetParameter "k" false)
      cache := (Cache.New 3600).Set 0 "k" (.string "a,b,c") 60 }
    0 0 "k" 60 { Name := some "k", Type_ := some "StringList", Value := some "a,b,c" }
    ["a", "b", "c"] rfl rfl rfl).2.2.2 60 60 5 unreachableStore rfl⟩

/-! ## The secure accessor -/

/-- C14 (the secure accessor is the scalar accessor with decryption and expected type
changed): `GetExpiringSecureString` is `GetExpiringString` with the decryption flag
`true` for `false` and the expected type `SecureString` for `String`, and
`GetSecureString` is that with the default-TTL sentinel; on a cache hit the two
accessors return the same result and state; and on a miss for which the
decrypting request is answered with a `SecureString` parameter, the value the
remote returned is what is returned and what is stored under `name`. -/
theorem secure_is_scalar_with_decryption (s : ssmCacheImpl) (now later : Int) (name : String)
    (ttl : Int) :
    s.GetExpiringString now later name ttl
      = s.GetExpiringStringWith false "String" now later name ttl ∧
    s.GetExpiringSecureString now later name ttl
      = s.GetExpiringStringWith true "SecureString" now later name ttl ∧
    s.GetSecureString now later name
      = s.GetExpiringStringWith true "SecureString" now later name DefaultExpiration ∧
    (∀ v, s.cache.Get now name = some v →
      s.GetExpiringSecureString now later name ttl = s.GetExpiringString now later name ttl) ∧
    (∀ p : Parameter, s.cache.Get now name = none →
      s.ssmSvc.parameters name true = .ok { Parameter := some p } →
      p.Type_ = some "SecureString" →
      s.GetExpiringSecureString now later name ttl
        = (.returned (p.Value.getD "", none),
            { ssmSvc := s.ssmSvc.record (.GetParameter name true)
              cache := s.cache.Set later name (.string (p.Value.getD "")) ttl })) := by
  refine ⟨rfl, rfl, rfl, fun v hv => GetExpiringStringWith_hit_eq hv _ _ _ _ _ _,
    fun p hmiss hremote htype => ?_⟩
  have htype' : p.Type_ = some ParameterTypeSecureString := htype
  unfold ssmCacheImpl.GetExpiringSecureString
  rw [hmiss]
  simp only [getParameter_ok hremote htype']

/-- A secret fetched with decryption on a miss: the plaintext is returned and cached. -/
theorem secure_is_scalar_with_decryption_witness :
    (NewClientWithSession (singleParameterStore "pw" "SecureString" (some "hunter2"))
        3600).GetExpiringSecureString 0 0 "pw" 60
      = (.returned ("hunter2", none),
          { ssmSvc := (singleParameterStore "pw" "SecureString" (some "hunter2")).record
              (.GetParameter "pw" true)
            cache := (Cache.New 3600).Set 0 "pw" (.string "hunter2") 60 }) :=
  (secure_is_scalar_with_decryption
    (NewClientWithSession (singleParameterStore "pw" "SecureString" (some "hunter2")) 3600)
    0 0 "pw" 60).2.2.2.2
    { Name := some "pw", Type_ := some "SecureString", Value := some "hunter2" } rfl rfl rfl

/-! ## Responses with absent fields -/

/-- C15 (evaluation at the failing inputs): against a store that reports no error but
leaves fields out, the accessors panic on a nil dereference instead of returning
a value or an error: the three single-parameter accessors when the parameter has
no declared type or the response has no parameter object, the group accessors
when a listed parameter has no name. -/
theorem absent_fields_panic :
    ((NewClientWithSession incompleteStore 3600).GetExpiringString 0 0 "untyped" 60).1
      = .panicked nilDereference ∧
    ((NewClientWithSession incompleteStore 3600).GetExpiringStringList 0 0 "untyped" 60).1
      = .panicked nilDereference ∧
    ((NewClientWithSession incompleteStore 3600).GetExpiringSecureString 0 0 "untyped" 60).1
      = .panicked nilDereference ∧
    ((NewClientWithSession incompleteStore 3600).GetString 0 0 "untyped").1
      = .panicked nilDereference ∧
    ((NewClientWithSession incompleteStore 3600).GetSecureString 0 0 "untyped").1
      = .panicked nilDereference ∧
    ((NewClientWithSession incompleteStore 3600).GetExpiringString 0 0 "k" 60).1
      = .panicked nilDereference ∧
    ((NewClientWithSession incompleteStore 3600).GetExpiringStringList 0 0 "k" 60).1
      = .panicked nilDereference ∧
    ((NewClientWithSession incompleteStore 3600).GetExpiringSecureString 0 0 "k" 60).1
      = .panicked nilDereference ∧
    ((NewClientWithSession incompleteStore 3600).GetExpiringParameterGroup 0 0 "appcfg" "/app/"
        60).1 = .panicked nilDereference ∧
    ((NewClientWithSession incompleteStore 3600).GetParameterGroup 0 0 "appcfg" "/app/").1
      = .panicked nilDereference :=
  ⟨rfl, rfl, rfl, rfl, rfl, rfl, rfl, rfl, rfl, rfl⟩

end ssmcache
